import Mathlib

/-!
Shallow embedding of `zotero_notion_sync` (src/zotero_notion_sync/__init__.py).

Python strings are modeled as Lean `String` (a sequence of characters, like
Python's sequence of code points).  The two remote stores are modeled as
explicit state: the Notion database is a list of rows (`NotionRow`), the
Zotero library is a list of top-level items plus a list of child notes
(`ZoteroState`).  Remote calls become state-passing functions; fallible
steps return `Except String`.
-/

/-- `Paper` dataclass (source lines 23-46).  Field names kept verbatim. -/
structure Paper where
  title : String
  authors : String
  link : Option String
  published_at : Option String
  zotero_url : String
  zotero_item_id : String
  notion_id : Option String
deriving DecidableEq, Repr

/-- `notion_id.replace('-', '')` as used in `Paper.notion_url` and
`notion_page_to_paper`. -/
def stripHyphens (s : String) : String := String.mk (s.data.filter (fun c => c != '-'))

/-- `Paper.notion_url` property (source lines 33-36): `None` when `notion_id`
is falsy (absent or empty), otherwise the hyphen-stripped deep link. -/
def Paper.notion_url (p : Paper) : Option String :=
  match p.notion_id with
  | some i => if i ≠ "" then some ("https://notion.so/" ++ stripHyphens i) else none
  | none => none

/-- `Paper.zotero_eq` (source lines 38-46): content equality, `notion_id`
excluded. -/
def Paper.zotero_eq (p other : Paper) : Bool :=
  p.title == other.title
    && p.authors == other.authors
    && p.link == other.link
    && p.published_at == other.published_at
    && p.zotero_url == other.zotero_url
    && p.zotero_item_id == other.zotero_item_id

/-- `truncate_text` (source lines 86-91): `text[: limit - 3] + "..."` when the
text exceeds the limit (the Python default for `limit` is 2000).  The slice
`text[: limit - 3]` is the list of the first `limit - 3` characters. -/
def truncate_text (text : String) (limit : Nat) : String :=
  if text.length ≤ limit then text
  else String.mk (text.data.take (limit - 3)) ++ "..."

/-!  Notion property cells (`notion_object_to_str`, source lines 49-69).
A cell is a tagged object; `other` stands for any type tag outside the
handled set, for which the Python code raises `RuntimeError`.  A `date`
cell carries an optional payload (`obj["date"]` may be null, which the
code checks before indexing); a `select` cell also carries an optional
payload (`obj["select"]` is null for an empty select), but the code
indexes `["name"]` into it unconditionally, so a null payload raises
`TypeError`; a `text` cell carries `obj["text"]["content"]`; `title` /
`rich_text` / `multi_select` carry lists of nested objects. -/
inductive NotionObj where
  | title (parts : List NotionObj)
  | text (content : String)
  | rich_text (parts : List NotionObj)
  | select (payload : Option String)
  | multi_select (parts : List NotionObj)
  | date (payload : Option String)
  | url (value : String)
  | other (tag : String)
deriving Repr

mutual
/-- `notion_object_to_str` (source lines 49-69).  The `"".join(...)` and
`", ".join(...)` over nested objects become `String.intercalate` over the
decoded parts; an unhandled tag raises. -/
def notion_object_to_str : NotionObj → Except String String
  | NotionObj.title parts => (decodeParts parts).map (fun l => String.intercalate "" l)
  | NotionObj.text content => Except.ok content
  | NotionObj.rich_text parts => (decodeParts parts).map (fun l => String.intercalate "" l)
  | NotionObj.select payload =>
    match payload with
    | some name => Except.ok name
    | none => Except.error "TypeError: NoneType object is not subscriptable"
  | NotionObj.multi_select parts => (decodeParts parts).map (fun l => String.intercalate ", " l)
  | NotionObj.date payload =>
    match payload with
    | some start => Except.ok start
    | none => Except.ok ""
  | NotionObj.url value => Except.ok value
  | NotionObj.other tag => Except.error ("Unexpected `" ++ tag ++ "` type")

/-- Decode each element of a nested object list, failing on the first error
(as the Python generator inside `join` would). -/
def decodeParts : List NotionObj → Except String (List String)
  | [] => Except.ok []
  | x :: xs =>
    match notion_object_to_str x with
    | Except.error e => Except.error e
    | Except.ok s =>
      match decodeParts xs with
      | Except.error e => Except.error e
      | Except.ok l => Except.ok (s :: l)
end

mutual
/-- True when every type tag occurring in the cell (recursively) is one of
the handled tags, i.e. the cell contains no `other` node. -/
def allRecognized : NotionObj → Bool
  | NotionObj.title parts => allRecognizedList parts
  | NotionObj.text _ => true
  | NotionObj.rich_text parts => allRecognizedList parts
  | NotionObj.select _ => true
  | NotionObj.multi_select parts => allRecognizedList parts
  | NotionObj.date _ => true
  | NotionObj.url _ => true
  | NotionObj.other _ => false

def allRecognizedList : List NotionObj → Bool
  | [] => true
  | x :: xs => allRecognized x && allRecognizedList xs
end

mutual
/-- True when no `select` node occurring in the cell (recursively) has a
null payload: `obj["select"]["name"]` on a null object raises `TypeError`
even though the tag itself is recognized. -/
def noNullSelect : NotionObj → Bool
  | NotionObj.title parts => noNullSelectList parts
  | NotionObj.text _ => true
  | NotionObj.rich_text parts => noNullSelectList parts
  | NotionObj.select payload => payload.isSome
  | NotionObj.multi_select parts => noNullSelectList parts
  | NotionObj.date _ => true
  | NotionObj.url _ => true
  | NotionObj.other _ => true

def noNullSelectList : List NotionObj → Bool
  | [] => true
  | x :: xs => noNullSelect x && noNullSelectList xs
end

/-!  The Notion database.  A row stores the values of the six properties
written by this program plus the page id.  Cell-level conventions follow
`notion_object_to_str`: an unset date is a null payload which decodes to
`""`, an unset url property is null (`none`). -/
structure NotionRow where
  id : String
  title : String
  authors : String
  link : Option String
  published_at : Option String
  zotero_url : String
  zotero_item_id : String
deriving DecidableEq, Repr

/-- `notion_page_to_paper` (source lines 72-83) at row level: `published_at`
is the decoded date cell (`""` for a null payload) passed through `or None`;
`notion_id` is the page id with hyphens stripped. -/
def notion_page_to_paper (r : NotionRow) : Paper :=
  { title := r.title
    authors := r.authors
    published_at :=
      match r.published_at with
      | some s => if s = "" then none else some s
      | none => none
    zotero_url := r.zotero_url
    zotero_item_id := r.zotero_item_id
    link := r.link
    notion_id := some (stripHyphens r.id) }

/-- The property payload built by `paper_to_notion_properties` (source lines
122-133): `none` in `link` / `published_at` means the key is absent from the
payload (the Python code only adds them when truthy, so an empty string is
also dropped).  Rich-text cells (`authors`, `zotero_item_id`) are truncated
by `to_rich_text_dict` with the default limit 2000. -/
structure NotionProps where
  title : String
  authors : String
  zotero_url : String
  zotero_item_id : String
  link : Option String
  published_at : Option String
deriving DecidableEq, Repr

def paper_to_notion_properties (p : Paper) : NotionProps :=
  { title := p.title
    authors := truncate_text p.authors 2000
    zotero_url := p.zotero_url
    zotero_item_id := truncate_text p.zotero_item_id 2000
    link :=
      match p.link with
      | some l => if l = "" then none else some l
      | none => none
    published_at :=
      match p.published_at with
      | some s => if s = "" then none else some s
      | none => none }

/-- Server side of `pages.create`: a fresh page whose unset properties are
null. -/
def createRow (id : String) (props : NotionProps) : NotionRow :=
  { id := id
    title := props.title
    authors := props.authors
    link := props.link
    published_at := props.published_at
    zotero_url := props.zotero_url
    zotero_item_id := props.zotero_item_id }

/-- Server side of `pages.update`: properties absent from the payload keep
their previous value (Notion updates are partial). -/
def updateRow (r : NotionRow) (props : NotionProps) : NotionRow :=
  { r with
    title := props.title
    authors := props.authors
    zotero_url := props.zotero_url
    zotero_item_id := props.zotero_item_id
    link :=
      match props.link with
      | some l => some l
      | none => r.link
    published_at :=
      match props.published_at with
      | some s => some s
      | none => r.published_at }

/-!  Zotero items and notes. -/

/-- A `data.creators[]` entry; `name` is present for single-field names,
otherwise `firstName` / `lastName` are used (source lines 154-157). -/
structure ZCreator where
  creatorType : String
  name : Option String
  firstName : String
  lastName : String
deriving DecidableEq, Repr

def zotero_author_to_str (a : ZCreator) : String :=
  match a.name with
  | some n => n
  | none => a.firstName ++ " " ++ a.lastName

/-- A top-level Zotero item: the fields read by `zotero_item_to_paper`.
`date` is optional because `data["date"]` is a raw dictionary access that
raises `KeyError` when the key is absent. -/
structure ZItem where
  key : String
  libraryId : String
  title : String
  creators : List ZCreator
  date : Option String
  url : String
deriving DecidableEq, Repr

/-- `zotero_item_to_url` (source lines 148-151). -/
def zotero_item_to_url (item : ZItem) : String :=
  "https://open-zotero.xyz/select/groups/" ++ item.libraryId ++ "/items/" ++ item.key

/-- Model of the third-party `pandas.to_datetime` with its default error
policy: a null-like input (the empty string) yields `NaT` (here `none`);
an input recognized as a date yields that date; any other non-empty input
raises a parse error, which the caller does not catch.  The recognized
subset is modeled as ISO `YYYY-MM-DD` strings (for which
`str(t.date())` returns the input unchanged). -/
def pd_to_datetime (dt : String) : Except String (Option String) :=
  if dt = "" then Except.ok none
  else
    match dt.data with
    | [y1, y2, y3, y4, '-', m1, m2, '-', d1, d2] =>
      if [y1, y2, y3, y4, m1, m2, d1, d2].all Char.isDigit then Except.ok (some dt)
      else Except.error ("DateParseError: " ++ dt)
    | _ => Except.error ("DateParseError: " ++ dt)

/-- `zotero_to_datetime_str` (source lines 160-163): returns the date when
the parse result is not null, `None` otherwise; a parse failure propagates. -/
def zotero_to_datetime_str (dt : String) : Except String (Option String) :=
  match pd_to_datetime dt with
  | Except.error e => Except.error e
  | Except.ok t =>
    match t with
    | some d => Except.ok (some d)
    | none => Except.ok none

/-- `zotero_item_to_paper` (source lines 166-181).  `data["date"]` is a raw
lookup, so an absent date field is a `KeyError`. -/
def zotero_item_to_paper (item : ZItem) : Except String Paper :=
  match item.date with
  | none => Except.error "KeyError: date"
  | some dateRaw =>
    match zotero_to_datetime_str dateRaw with
    | Except.error e => Except.error e
    | Except.ok pub =>
      Except.ok
        { title := item.title
          zotero_item_id := item.key
          zotero_url := zotero_item_to_url item
          authors :=
            String.intercalate ", "
              ((item.creators.filter (fun a => a.creatorType == "author")).map zotero_author_to_str)
          published_at := pub
          link := some item.url
          notion_id := none }

/-- A Zotero child item as returned by `zotero.children` /
`zotero.items(itemType="note")`. -/
structure ZNote where
  itemType : String
  tags : List String
  note : String
  parentItem : String
deriving DecidableEq, Repr

/-- `find_notion_note` (source lines 184-190): the first child that is a
note with tag list exactly `[{"tag": "notion-link"}]`. -/
def find_notion_note (children : List ZNote) : Option ZNote :=
  children.find? (fun c => c.itemType == "note" && c.tags == ["notion-link"])

def isNotionLinkNote (pid : String) (c : ZNote) : Bool :=
  c.parentItem == pid && c.itemType == "note" && c.tags == ["notion-link"]

/-- Replace the first element satisfying `p` by its image under `f`. -/
def replaceFirst : List α → (α → Bool) → (α → α) → List α
  | [], _, _ => []
  | x :: xs, p, f => if p x then f x :: xs else x :: replaceFirst xs p f

/-- The note body `f'<a href="{paper.notion_url}">Notion</a>'`; a falsy
`notion_url` prints as `None`. -/
def note_body (p : Paper) : String :=
  "<a href=\"" ++ (match p.notion_url with | some u => u | none => "None") ++ "\">Notion</a>"

/-- `update_zotero_notion_note` (source lines 193-203) on the library's note
state: overwrite the body of the first matching note of the parent, or
append a fresh note (`zotero.create_items`) when none exists. -/
def update_zotero_notion_note (paper : Paper) (children : List ZNote) : List ZNote :=
  match find_notion_note (children.filter (fun c => c.parentItem == paper.zotero_item_id)) with
  | some _ =>
    replaceFirst children (isNotionLinkNote paper.zotero_item_id)
      (fun c => { c with note := note_body paper })
  | none =>
    children ++
      [{ itemType := "note", tags := ["notion-link"], note := note_body paper,
         parentItem := paper.zotero_item_id }]

/-!  `find_notion_id` (source lines 206-212): first match of the regular
expression `https://notion.so/([a-z0-9-]+)` anywhere in the text; the
captured group is the maximal run of `[a-z0-9-]` characters after the
literal head. -/

def notionUrlHead : List Char := "https://notion.so/".data

def idChar (c : Char) : Bool :=
  ('a' ≤ c && c ≤ 'z') || ('0' ≤ c && c ≤ '9') || c == '-'

/-- Try to match the pattern at the start of `s`. -/
def matchAt (s : List Char) : Option (List Char) :=
  if notionUrlHead.isPrefixOf s then
    let run := (s.drop notionUrlHead.length).takeWhile idChar
    if run.isEmpty then none else some run
  else none

/-- Leftmost-match search, as `re.search`. -/
def searchLink : List Char → Option (List Char)
  | [] => none
  | c :: rest =>
    match matchAt (c :: rest) with
    | some g => some g
    | none => searchLink rest

def find_notion_id (text : String) : Option String :=
  (searchLink text.data).map (fun l => String.mk l)

/-!  Dictionaries.  Python dictionaries are modeled as association lists
with insertion order: inserting an existing key overwrites in place,
otherwise appends. -/

def dictInsert (d : List (String × Paper)) (k : String) (v : Paper) : List (String × Paper) :=
  if d.any (fun kv => kv.1 == k) then
    d.map (fun kv => if kv.1 == k then (kv.1, v) else kv)
  else d ++ [(k, v)]

def dictGet (d : List (String × Paper)) (k : String) : Option Paper :=
  (d.find? (fun kv => kv.1 == k)).map (fun kv => kv.2)

/-- `{p.zotero_item_id: p for p in papers}`. -/
def buildDict (papers : List Paper) : List (String × Paper) :=
  papers.foldl (fun d p => dictInsert d p.zotero_item_id p) []

/-!  `get_all_zotero_papers` (source lines 215-230). -/

structure ZoteroState where
  items : List ZItem
  children : List ZNote
deriving DecidableEq, Repr

/-- `{item["data"]["key"]: zotero_item_to_paper(item) for item in zotero.all_top()}`:
the conversion of any item may fail, failing the whole listing. -/
def buildTop : List ZItem → Except String (List (String × Paper))
  | [] => Except.ok []
  | it :: rest =>
    match zotero_item_to_paper it with
    | Except.error e => Except.error e
    | Except.ok p =>
      match buildTop rest with
      | Except.error e => Except.error e
      | Except.ok d => Except.ok (dictInsert d it.key p)

/-- One iteration of the note loop: a note tagged exactly `notion-link`
whose parent is a known top-level item overwrites that paper's
`notion_id` with the parsed identifier (possibly `none`). -/
def applyNote (d : List (String × Paper)) (n : ZNote) : List (String × Paper) :=
  if n.tags == ["notion-link"] then
    if d.any (fun kv => kv.1 == n.parentItem) then
      d.map (fun kv =>
        if kv.1 == n.parentItem then (kv.1, { kv.2 with notion_id := find_notion_id n.note })
        else kv)
    else d
  else d

def get_all_zotero_papers (z : ZoteroState) : Except String (List Paper) :=
  match buildTop z.items with
  | Except.error e => Except.error e
  | Except.ok top =>
    let all_notes := z.children.filter (fun c => c.itemType == "note")
    Except.ok ((all_notes.foldl applyNote top).map (fun kv => kv.2))

/-!  The world state driven by `synchronize`: both stores plus the supply of
page identifiers the Notion server will assign to created pages. -/

structure World where
  zotero : ZoteroState
  notion : List NotionRow
  nextIds : List String
deriving DecidableEq, Repr

/-- Counts of the three kinds of remote writes issued by a run. -/
structure WriteCounts where
  creates : Nat
  updates : Nat
  noteWrites : Nat
deriving DecidableEq, Repr

/-- `create_notion_page` (source lines 106-111): submit the payload, the
server assigns the next fresh id, and the response decodes through
`notion_page_to_paper`. -/
def create_notion_page (w : World) (paper : Paper) : Except String (World × Paper) :=
  match w.nextIds with
  | [] => Except.error "create_notion_page: no page id available"
  | newId :: rest =>
    let row := createRow newId (paper_to_notion_properties paper)
    Except.ok
      ({ w with notion := w.notion ++ [row], nextIds := rest },
       notion_page_to_paper row)

/-- `update_notion_page` (source lines 114-119): `page_id=paper.notion_id`;
a null page id or an unknown page is a remote error.  The row whose
(hyphen-stripped) id matches is rewritten and the response decoded. -/
def update_notion_page (w : World) (paper : Paper) : Except String (World × Paper) :=
  match paper.notion_id with
  | none => Except.error "update_notion_page: page_id is None"
  | some pid =>
    match w.notion.find? (fun r => stripHyphens r.id == pid) with
    | none => Except.error "update_notion_page: page not found"
    | some r =>
      let r' := updateRow r (paper_to_notion_properties paper)
      let rows' := replaceFirst w.notion (fun row => stripHyphens row.id == pid)
        (fun row => updateRow row (paper_to_notion_properties paper))
      Except.ok ({ w with notion := rows' }, notion_page_to_paper r')

/-- The body of the `for paper in zotero_papers` loop of `synchronize`
(source lines 244-259), for one Library paper. -/
def syncStep (byId : List (String × Paper)) (wc : World × WriteCounts) (paper : Paper) :
    Except String (World × WriteCounts) :=
  match dictGet byId paper.zotero_item_id with
  | none =>
    match create_notion_page wc.1 paper with
    | Except.error e => Except.error e
    | Except.ok (w1, created) =>
      Except.ok
        ({ w1 with zotero :=
            { w1.zotero with children := update_zotero_notion_note created w1.zotero.children } },
         { wc.2 with creates := wc.2.creates + 1, noteWrites := wc.2.noteWrites + 1 })
  | some notion_paper =>
    if paper = notion_paper then Except.ok wc
    else
      match
        (if !(paper.zotero_eq notion_paper) then
          match update_notion_page wc.1 paper with
          | Except.error e => Except.error e
          | Except.ok (wu, npu) =>
            Except.ok (wu, npu, { wc.2 with updates := wc.2.updates + 1 })
        else Except.ok (wc.1, notion_paper, wc.2)) with
      | Except.error e => Except.error e
      | Except.ok (w1, np1, c1) =>
        if paper.notion_id ≠ np1.notion_id then
          Except.ok
            ({ w1 with zotero :=
                { w1.zotero with children := update_zotero_notion_note np1 w1.zotero.children } },
             { c1 with noteWrites := c1.noteWrites + 1 })
        else Except.ok (w1, c1)

/-- `synchronize` (source lines 233-259).  Pagination of `get_all_pages` is
modeled as the full row listing. -/
def synchronize (w : World) : Except String (World × WriteCounts) :=
  let notion_papers := w.notion.map notion_page_to_paper
  match get_all_zotero_papers w.zotero with
  | Except.error e => Except.error e
  | Except.ok zotero_papers =>
    let by_zotero_id := buildDict notion_papers
    zotero_papers.foldlM (syncStep by_zotero_id) (w, ⟨0, 0, 0⟩)

deriving instance DecidableEq for Except

/-!  Derived notions used to state and prove properties of the pass. -/

/-- The net effect of the note loop of `get_all_zotero_papers` on the paper
keyed `k`: the parsed identifier of the last note (in fetch order) tagged
exactly `notion-link` whose parent is `k`, or the fallback. -/
def resolvedFrom (notes : List ZNote) (k : String) (dflt : Option String) : Option String :=
  notes.foldl
    (fun acc n =>
      if n.tags == ["notion-link"] && n.parentItem == k then find_notion_id n.note else acc)
    dflt

/-- The `board_id` the Library resolves for item `k` from the note state. -/
def resolvedId (ch : List ZNote) (k : String) : Option String :=
  resolvedFrom (ch.filter (fun c => c.itemType == "note")) k none

/-- First Board row whose external id is `k`. -/
def findRow (rows : List NotionRow) (k : String) : Option NotionRow :=
  rows.find? (fun r => r.zotero_item_id == k)

/-- Well-formed page id: nonempty after stripping hyphens, remaining
characters lowercase alphanumeric (as Notion page ids are). -/
def idOk (s : String) : Bool :=
  (stripHyphens s != "")
    && (stripHyphens s).data.all (fun c => ('a' ≤ c && c ≤ 'z') || ('0' ≤ c && c ≤ '9'))

/-- Content constraints under which Board writes round-trip: rich-text
fields within the 2000-character limit, and no empty-string `link` /
`published_at` (the payload drops falsy values, so an empty string cannot
be stored and read back). -/
def contentOk (p : Paper) : Prop :=
  p.authors.length ≤ 2000 ∧ p.zotero_item_id.length ≤ 2000 ∧
    p.link ≠ some "" ∧ p.published_at ≠ some ""

/-- Link sanity of a Library paper w.r.t. its Board counterpart: its
resolved `board_id` is absent or points at the counterpart row, and when
the contents differ the link must be present (the code updates through the
Library-side id) and the update must be able to establish content equality
(a date can never be cleared by the partial update). -/
def linksOk (w : World) (p : Paper) : Prop :=
  match findRow w.notion p.zotero_item_id with
  | some r =>
    (p.notion_id = none ∨ p.notion_id = some (stripHyphens r.id)) ∧
      (p.zotero_eq (notion_page_to_paper r) = false →
        p.notion_id = some (stripHyphens r.id) ∧
          (p.published_at ≠ none ∨ r.published_at = none ∨ r.published_at = some ""))
  | none => True

instance decContentOk (p : Paper) : Decidable (contentOk p) :=
  inferInstanceAs (Decidable (_ ∧ _ ∧ _ ∧ _))

instance decLinksOk (w : World) (p : Paper) : Decidable (linksOk w p) := by
  unfold linksOk
  cases findRow w.notion p.zotero_item_id with
  | none => exact inferInstanceAs (Decidable True)
  | some r =>
    exact inferInstanceAs (Decidable
      ((p.notion_id = none ∨ p.notion_id = some (stripHyphens r.id)) ∧
        (p.zotero_eq (notion_page_to_paper r) = false →
          p.notion_id = some (stripHyphens r.id) ∧
            (p.published_at ≠ none ∨ r.published_at = none ∨ r.published_at = some ""))))

/-- Paper `p` is fully synchronized in world `w₁`: its Board counterpart
exists, is content-equal, and the Library-side note resolves exactly to
that row's id. -/
def synced (w₁ : World) (p : Paper) : Prop :=
  ∃ r, findRow w₁.notion p.zotero_item_id = some r ∧
    (notion_page_to_paper r).zotero_eq p = true ∧
    resolvedId w₁.zotero.children p.zotero_item_id = some (stripHyphens r.id)

/-- Loop invariant of the first `synchronize` run: `done` papers are fully
synchronized, `todo` papers still see their initial counterpart row and
note state, and the structural well-formedness of the world is preserved. -/
structure SyncInv (w : World) (done todo : List Paper) (w₁ : World) : Prop where
  items_eq : w₁.zotero.items = w.zotero.items
  keysN : (w₁.notion.map NotionRow.zotero_item_id).Nodup
  idsN : ((w₁.notion.map (fun r => stripHyphens r.id)) ++ w₁.nextIds.map stripHyphens).Nodup
  idok : ∀ r ∈ w₁.notion, idOk r.id = true
  supok : ∀ i ∈ w₁.nextIds, idOk i = true
  notes1 : ∀ pid, (w₁.zotero.children.filter (isNotionLinkNote pid)).length ≤ 1
  keys_sub : ∀ r ∈ w₁.notion,
    r.zotero_item_id ∈ w.notion.map NotionRow.zotero_item_id ∨
      r.zotero_item_id ∈ done.map Paper.zotero_item_id
  todo_rows : ∀ p ∈ todo,
    findRow w₁.notion p.zotero_item_id = findRow w.notion p.zotero_item_id
  todo_notes : ∀ p ∈ todo,
    resolvedId w₁.zotero.children p.zotero_item_id =
      resolvedId w.zotero.children p.zotero_item_id
  done_synced : ∀ p ∈ done, synced w₁ p

/-!  Concrete instances used by the witnesses and counterexamples below. -/

/-- A Zotero item, its Board row and back-link note, in full sync. -/
def exItemSync : ZItem :=
  { key := "k1", libraryId := "7", title := "T",
    creators := [{ creatorType := "author", name := some "A", firstName := "", lastName := "" }],
    date := some "2021-03-04", url := "http://x" }

def exRowSync : NotionRow :=
  { id := "abc", title := "T", authors := "A", link := some "http://x",
    published_at := some "2021-03-04",
    zotero_url := "https://open-zotero.xyz/select/groups/7/items/k1", zotero_item_id := "k1" }

def exNoteSync : ZNote :=
  { itemType := "note", tags := ["notion-link"],
    note := "<a href=\"https://notion.so/abc\">Notion</a>", parentItem := "k1" }

def exWorldSync : World :=
  { zotero := { items := [exItemSync], children := [exNoteSync] },
    notion := [exRowSync], nextIds := [] }

/-- Same item but with an empty date (no `published_at` on the Library
side) while the Board row carries a date: the partial update can never
clear it. -/
def exItemNoDate : ZItem :=
  { key := "k1", libraryId := "7", title := "T",
    creators := [{ creatorType := "author", name := some "A", firstName := "", lastName := "" }],
    date := some "", url := "http://x" }

def exRowDate : NotionRow :=
  { id := "abc", title := "T", authors := "A", link := some "http://x",
    published_at := some "2020-01-01",
    zotero_url := "https://open-zotero.xyz/select/groups/7/items/k1", zotero_item_id := "k1" }

def exWorldDate : World :=
  { zotero := { items := [exItemNoDate], children := [exNoteSync] },
    notion := [exRowDate], nextIds := [] }

/-- A Board row with matching external id but stale content. -/
def exRowB : NotionRow :=
  { id := "bbb", title := "OLD", authors := "A", link := some "http://x",
    published_at := some "",
    zotero_url := "https://open-zotero.xyz/select/groups/7/items/k1", zotero_item_id := "k1" }

/-- A Board row with no Library counterpart. -/
def exRowX : NotionRow :=
  { id := "xxx", title := "TX", authors := "AX", link := some "http://y",
    published_at := none,
    zotero_url := "https://open-zotero.xyz/select/groups/7/items/k9", zotero_item_id := "k9" }

/-- A back-link note of item `k1` pointing (stale) at row `xxx`. -/
def exNoteStale : ZNote :=
  { itemType := "note", tags := ["notion-link"],
    note := "<a href=\"https://notion.so/xxx\">Notion</a>", parentItem := "k1" }

def exWorldStale : World :=
  { zotero := { items := [exItemNoDate], children := [exNoteStale] },
    notion := [exRowB, exRowX], nextIds := [] }

/-- The Library paper the stale world resolves for `k1`. -/
def exPaperStale : Paper :=
  { title := "T", authors := "A", link := some "http://x", published_at := none,
    zotero_url := "https://open-zotero.xyz/select/groups/7/items/k1",
    zotero_item_id := "k1", notion_id := some "xxx" }

/-- What row `xxx` becomes after the stale run clobbers it. -/
def exRowXAfter : NotionRow :=
  { id := "xxx", title := "T", authors := "A", link := some "http://x",
    published_at := none,
    zotero_url := "https://open-zotero.xyz/select/groups/7/items/k1", zotero_item_id := "k1" }

/-- A Library paper with differing content and no resolved `board_id`. -/
def exPaperNoId : Paper :=
  { title := "T", authors := "A", link := some "http://x", published_at := none,
    zotero_url := "https://open-zotero.xyz/select/groups/7/items/k1",
    zotero_item_id := "k1", notion_id := none }

def exWorldB : World :=
  { zotero := { items := [], children := [] }, notion := [exRowB], nextIds := [] }

/-- A Library paper whose `link` is the empty string. -/
def exPaperEmptyLink : Paper :=
  { title := "T", authors := "A", link := some "", published_at := none,
    zotero_url := "u", zotero_item_id := "k1", notion_id := none }

def exWorldEmpty : World :=
  { zotero := { items := [], children := [] }, notion := [], nextIds := ["abc"] }

def exCreatedEmptyLink : Paper :=
  notion_page_to_paper (createRow "abc" (paper_to_notion_properties exPaperEmptyLink))

/-- Two `notion-link` notes on the same item; the later one has no link. -/
def exNote10a : ZNote :=
  { itemType := "note", tags := ["notion-link"],
    note := "<a href=\"https://notion.so/abc\">Notion</a>", parentItem := "k1" }

def exNote10b : ZNote :=
  { itemType := "note", tags := ["notion-link"], note := "no link here", parentItem := "k1" }

def exZState10 : ZoteroState := { items := [exItemSync], children := [exNote10a, exNote10b] }

/-- The paper produced from `exZState10`: the later note wins, erasing the
earlier identifier. -/
def exPaper10 : Paper :=
  { title := "T", authors := "A", link := some "http://x", published_at := some "2021-03-04",
    zotero_url := "https://open-zotero.xyz/select/groups/7/items/k1",
    zotero_item_id := "k1", notion_id := none }

/-- `exWorldSync` extended with an untouched counterpart-less row. -/
def exWorldSync2 : World :=
  { zotero := { items := [exItemSync], children := [exNoteSync] },
    notion := [exRowSync, exRowX], nextIds := [] }

/-- An item whose date cannot be parsed as a date. -/
def exItemBadDate : ZItem :=
  { key := "k1", libraryId := "7", title := "T", creators := [], date := some "n.d.",
    url := "http://x" }

/-- An item whose raw data carries no date key at all. -/
def exItemMissingDate : ZItem :=
  { key := "k1", libraryId := "7", title := "T", creators := [], date := some "",
    url := "http://x" }

def exItemAbsentDate : ZItem :=
  { key := "k1", libraryId := "7", title := "T", creators := [], date := none,
    url := "http://x" }

/-- A Library paper with differing content whose resolved board id points at
row `bbb` itself. -/
def exPaperWithId : Paper :=
  { title := "T", authors := "A", link := some "http://x", published_at := none,
    zotero_url := "https://open-zotero.xyz/select/groups/7/items/k1",
    zotero_item_id := "k1", notion_id := some "bbb" }

/-- The fully synchronized Library paper of `exWorldSync`. -/
def exPaperSync : Paper :=
  { title := "T", authors := "A", link := some "http://x", published_at := some "2021-03-04",
    zotero_url := "https://open-zotero.xyz/select/groups/7/items/k1",
    zotero_item_id := "k1", notion_id := some "abc" }

/-- A Library paper content-equal to `exRowSync` but with no back-link yet. -/
def exPaperRepair : Paper :=
  { title := "T", authors := "A", link := some "http://x", published_at := some "2021-03-04",
    zotero_url := "https://open-zotero.xyz/select/groups/7/items/k1",
    zotero_item_id := "k1", notion_id := none }

/-!  # Basic bridging lemmas -/

theorem data_append (a b : String) : (a ++ b).data = a.data ++ b.data := rfl

theorem length_eq_data (s : String) : s.length = s.data.length := rfl

theorem mk_data (s : String) : String.mk s.data = s := rfl

theorem data_eq_nil_iff (s : String) : s.data = [] ↔ s = "" := by
  cases s with
  | mk l =>
    constructor
    · intro h
      have h' : l = [] := h
      rw [h']
    · intro h
      rw [h]

theorem truncate_text_of_le {t : String} {n : Nat} (h : t.length ≤ n) :
    truncate_text t n = t := by
  unfold truncate_text; rw [if_pos h]

theorem zotero_eq_iff (p q : Paper) :
    p.zotero_eq q = true ↔
      (p.title = q.title ∧ p.authors = q.authors ∧ p.link = q.link ∧
       p.published_at = q.published_at ∧ p.zotero_url = q.zotero_url ∧
       p.zotero_item_id = q.zotero_item_id) := by
  simp [Paper.zotero_eq, Bool.and_eq_true, beq_iff_eq, and_assoc]

theorem zotero_eq_symm (p q : Paper) : p.zotero_eq q = q.zotero_eq p := by
  cases hpq : p.zotero_eq q with
  | true =>
    have h := (zotero_eq_iff p q).mp hpq
    exact ((zotero_eq_iff q p).mpr
      ⟨h.1.symm, h.2.1.symm, h.2.2.1.symm, h.2.2.2.1.symm, h.2.2.2.2.1.symm,
       h.2.2.2.2.2.symm⟩).symm
  | false =>
    cases hqp : q.zotero_eq p with
    | false => rfl
    | true =>
      have h := (zotero_eq_iff q p).mp hqp
      have h2 : p.zotero_eq q = true :=
        (zotero_eq_iff p q).mpr
          ⟨h.1.symm, h.2.1.symm, h.2.2.1.symm, h.2.2.2.1.symm, h.2.2.2.2.1.symm,
           h.2.2.2.2.2.symm⟩
      rw [hpq] at h2
      exact absurd h2 (by simp)

theorem zotero_eq_refl (p : Paper) : p.zotero_eq p = true := by
  exact (zotero_eq_iff p p).mpr ⟨rfl, rfl, rfl, rfl, rfl, rfl⟩

/-!  # List utilities about `replaceFirst`, `find?` and folds -/

theorem replaceFirst_cons_pos {α : Type} {x : α} {xs : List α} {pr : α → Bool} {f : α → α}
    (h : pr x = true) : replaceFirst (x :: xs) pr f = f x :: xs := by
  simp [replaceFirst, h]

theorem replaceFirst_cons_neg {α : Type} {x : α} {xs : List α} {pr : α → Bool} {f : α → α}
    (h : pr x = false) : replaceFirst (x :: xs) pr f = x :: replaceFirst xs pr f := by
  simp [replaceFirst, h]

theorem replaceFirst_map {α β : Type} (l : List α) (pr : α → Bool) (f : α → α) (g : α → β)
    (h : ∀ x ∈ l, pr x = true → g (f x) = g x) :
    (replaceFirst l pr f).map g = l.map g := by
  induction l with
  | nil => rfl
  | cons x xs ih =>
    cases hpx : pr x with
    | true =>
      rw [replaceFirst_cons_pos hpx, List.map_cons, List.map_cons,
        h x (List.mem_cons_self x xs) hpx]
    | false =>
      rw [replaceFirst_cons_neg hpx, List.map_cons, List.map_cons,
        ih (fun y hy hpy => h y (List.mem_cons_of_mem _ hy) hpy)]

theorem mem_replaceFirst {α : Type} {l : List α} {pr : α → Bool} {f : α → α} {x : α}
    (h : x ∈ replaceFirst l pr f) : x ∈ l ∨ ∃ y ∈ l, pr y = true ∧ x = f y := by
  induction l with
  | nil => simp [replaceFirst] at h
  | cons a as ih =>
    cases hpa : pr a with
    | true =>
      rw [replaceFirst_cons_pos hpa] at h
      rcases List.mem_cons.mp h with h1 | h2
      · exact Or.inr ⟨a, List.mem_cons_self a as, hpa, h1⟩
      · exact Or.inl (List.mem_cons_of_mem _ h2)
    | false =>
      rw [replaceFirst_cons_neg hpa] at h
      rcases List.mem_cons.mp h with h1 | h2
      · exact Or.inl (h1 ▸ List.mem_cons_self a as)
      · rcases ih h2 with h3 | ⟨y, hy, hpy, hxy⟩
        · exact Or.inl (List.mem_cons_of_mem _ h3)
        · exact Or.inr ⟨y, List.mem_cons_of_mem _ hy, hpy, hxy⟩

theorem find?_replaceFirst_of_ne {α : Type} (l : List α) (pr : α → Bool) (f : α → α)
    (q : α → Bool)
    (h : ∀ x ∈ l, pr x = true → (q x = false ∧ q (f x) = false)) :
    (replaceFirst l pr f).find? q = l.find? q := by
  induction l with
  | nil => rfl
  | cons a as ih =>
    cases hpa : pr a with
    | true =>
      rw [replaceFirst_cons_pos hpa]
      have hqa := h a (List.mem_cons_self a as) hpa
      rw [List.find?_cons_of_neg _ (by simp [hqa.2]), List.find?_cons_of_neg _ (by simp [hqa.1])]
    | false =>
      rw [replaceFirst_cons_neg hpa]
      cases hqa : q a with
      | true => rw [List.find?_cons_of_pos _ hqa, List.find?_cons_of_pos _ hqa]
      | false =>
        rw [List.find?_cons_of_neg _ (by simp [hqa]), List.find?_cons_of_neg _ (by simp [hqa])]
        exact ih (fun y hy hpy => h y (List.mem_cons_of_mem _ hy) hpy)

theorem find?_replaceFirst_hit {α : Type} (l : List α) (pr q : α → Bool) (f : α → α) (r : α)
    (hfind : l.find? q = some r) (hpr : pr r = true)
    (huniq : ∀ x ∈ l, pr x = true → x = r) (hq : q (f r) = true) :
    (replaceFirst l pr f).find? q = some (f r) := by
  induction l with
  | nil => simp at hfind
  | cons a as ih =>
    cases hpa : pr a with
    | true =>
      have ha : a = r := huniq a (List.mem_cons_self a as) hpa
      subst ha
      rw [replaceFirst_cons_pos hpa, List.find?_cons_of_pos _ hq]
    | false =>
      rw [replaceFirst_cons_neg hpa]
      cases hqa : q a with
      | true =>
        rw [List.find?_cons_of_pos _ hqa] at hfind
        have haa : a = r := by injection hfind
        subst haa
        rw [hpa] at hpr
        exact absurd hpr (by simp)
      | false =>
        rw [List.find?_cons_of_neg _ (by simp [hqa])] at hfind
        rw [List.find?_cons_of_neg _ (by simp [hqa])]
        exact ih hfind (fun y hy hpy => huniq y (List.mem_cons_of_mem _ hy) hpy)

theorem getElem?_replaceFirst_of_not {α : Type} {l : List α} {pr : α → Bool} {f : α → α}
    {k : Nat} {x : α} (h : l[k]? = some x) (hx : pr x = false) :
    (replaceFirst l pr f)[k]? = some x := by
  induction l generalizing k with
  | nil => simp at h
  | cons a as ih =>
    cases hpa : pr a with
    | true =>
      rw [replaceFirst_cons_pos hpa]
      cases k with
      | zero =>
        simp only [List.getElem?_cons_zero, Option.some.injEq] at h
        rw [h] at hpa
        rw [hpa] at hx
        exact absurd hx (by simp)
      | succ n =>
        simp only [List.getElem?_cons_succ] at h ⊢
        exact h
    | false =>
      rw [replaceFirst_cons_neg hpa]
      cases k with
      | zero => simpa using h
      | succ n =>
        simp only [List.getElem?_cons_succ] at h ⊢
        exact ih h

theorem filter_replaceFirst_length {α : Type} (l : List α) (pr : α → Bool) (f : α → α)
    (q : α → Bool) (h : ∀ x ∈ l, pr x = true → q (f x) = q x) :
    ((replaceFirst l pr f).filter q).length = (l.filter q).length := by
  induction l with
  | nil => rfl
  | cons a as ih =>
    cases hpa : pr a with
    | true =>
      rw [replaceFirst_cons_pos hpa]
      have hqa := h a (List.mem_cons_self a as) hpa
      cases hq : q a with
      | true =>
        rw [List.filter_cons_of_pos (by rw [hqa, hq]), List.filter_cons_of_pos hq,
          List.length_cons, List.length_cons]
      | false =>
        rw [List.filter_cons_of_neg (by simp [hqa, hq]), List.filter_cons_of_neg (by simp [hq])]
    | false =>
      rw [replaceFirst_cons_neg hpa]
      have ih2 := ih (fun y hy hpy => h y (List.mem_cons_of_mem _ hy) hpy)
      cases hq : q a with
      | true =>
        rw [List.filter_cons_of_pos hq, List.filter_cons_of_pos hq]
        simpa using ih2
      | false =>
        rw [List.filter_cons_of_neg (by simp [hq]), List.filter_cons_of_neg (by simp [hq])]
        exact ih2

theorem find?_eq_some_of_unique {α : Type} {l : List α} {p : α → Bool} {r : α}
    (hmem : r ∈ l) (hp : p r = true) (huniq : ∀ x ∈ l, p x = true → x = r) :
    l.find? p = some r := by
  induction l with
  | nil => simp at hmem
  | cons a as ih =>
    cases hpa : p a with
    | true =>
      rw [List.find?_cons_of_pos _ hpa]
      rw [huniq a (List.mem_cons_self a as) hpa]
    | false =>
      rw [List.find?_cons_of_neg _ (by simp [hpa])]
      rcases List.mem_cons.mp hmem with h1 | h2
      · subst h1; rw [hpa] at hp; exact absurd hp (by simp)
      · exact ih h2 (fun x hx hpx => huniq x (List.mem_cons_of_mem _ hx) hpx)

/-!  # Lemmas about note resolution -/

theorem resolvedFrom_cons (x : ZNote) (l : List ZNote) (k : String) (d : Option String) :
    resolvedFrom (x :: l) k d =
      resolvedFrom l k
        (if (x.tags == ["notion-link"] && x.parentItem == k) = true then find_notion_id x.note
         else d) := by
  simp [resolvedFrom, List.foldl_cons]

theorem resolvedFrom_of_no_match {l : List ZNote} {k : String} {d : Option String}
    (h : ∀ n ∈ l, (n.tags == ["notion-link"] && n.parentItem == k) = false) :
    resolvedFrom l k d = d := by
  induction l generalizing d with
  | nil => rfl
  | cons x xs ih =>
    rw [resolvedFrom_cons, if_neg (by simp [h x (List.mem_cons_self x xs)])]
    exact ih (fun n hn => h n (List.mem_cons_of_mem _ hn))

theorem isNotionLinkNote_iff (pid : String) (c : ZNote) :
    isNotionLinkNote pid c = true ↔
      (c.parentItem = pid ∧ c.itemType = "note" ∧ c.tags = ["notion-link"]) := by
  simp [isNotionLinkNote, Bool.and_eq_true, beq_iff_eq, and_assoc]

theorem resolvedId_cons_skip {c : ZNote} {ch : List ZNote} {k : String}
    (h : isNotionLinkNote k c = false) :
    resolvedId (c :: ch) k = resolvedId ch k := by
  unfold resolvedId
  cases hit : (c.itemType == "note") with
  | false => rw [List.filter_cons_of_neg (by simp [hit])]
  | true =>
    rw [List.filter_cons_of_pos (by simp [hit]), resolvedFrom_cons, if_neg]
    intro hcond
    have h3 : isNotionLinkNote k c = true := by
      have hconj := Bool.and_eq_true_iff.mp hcond
      apply (isNotionLinkNote_iff k c).mpr
      exact ⟨beq_iff_eq.mp hconj.2, beq_iff_eq.mp hit, beq_iff_eq.mp hconj.1⟩
    rw [h] at h3
    exact absurd h3 (by simp)

theorem resolvedId_nil (k : String) : resolvedId [] k = none := rfl

theorem resolvedId_append_self (ch : List ZNote) (n : ZNote) (k : String)
    (hn : isNotionLinkNote k n = true) :
    resolvedId (ch ++ [n]) k = find_notion_id n.note := by
  obtain ⟨hp, hi, ht⟩ := (isNotionLinkNote_iff k n).mp hn
  unfold resolvedId
  rw [List.filter_append, List.filter_cons_of_pos (by simp [hi]), List.filter_nil]
  rw [resolvedFrom, List.foldl_append]
  simp only [List.foldl_cons, List.foldl_nil]
  rw [if_pos (by simp [hp, ht])]

theorem resolvedId_append_skip (ch : List ZNote) (n : ZNote) (k : String)
    (hn : isNotionLinkNote k n = false) :
    resolvedId (ch ++ [n]) k = resolvedId ch k := by
  unfold resolvedId
  rw [List.filter_append]
  cases hit : (n.itemType == "note") with
  | false => rw [List.filter_cons_of_neg (by simp [hit]), List.filter_nil, List.append_nil]
  | true =>
    rw [List.filter_cons_of_pos (by simp [hit]), List.filter_nil]
    rw [resolvedFrom, List.foldl_append]
    simp only [List.foldl_cons, List.foldl_nil]
    rw [if_neg]
    · rfl
    · intro hcond
      have hconj := Bool.and_eq_true_iff.mp hcond
      have h3 : isNotionLinkNote k n = true :=
        (isNotionLinkNote_iff k n).mpr
          ⟨beq_iff_eq.mp hconj.2, beq_iff_eq.mp hit, beq_iff_eq.mp hconj.1⟩
      rw [hn] at h3
      exact absurd h3 (by simp)

theorem resolvedFrom_filter_replaceFirst {ch : List ZNote} {pr : ZNote → Bool} {b : String}
    {k : String} (h : ∀ c ∈ ch, pr c = true → isNotionLinkNote k c = false) :
    ∀ d : Option String,
      resolvedFrom
        ((replaceFirst ch pr (fun c => { c with note := b })).filter
          (fun c => c.itemType == "note")) k d =
      resolvedFrom (ch.filter (fun c => c.itemType == "note")) k d := by
  induction ch with
  | nil => intro d; rfl
  | cons c cs ih =>
    intro d
    have htail := ih (fun y hy hpy => h y (List.mem_cons_of_mem _ hy) hpy)
    cases hpc : pr c with
    | true =>
      rw [replaceFirst_cons_pos hpc]
      have hc := h c (List.mem_cons_self c cs) hpc
      cases hit : (c.itemType == "note") with
      | false =>
        rw [List.filter_cons_of_neg (by simp [hit]), List.filter_cons_of_neg (by simp [hit])]
      | true =>
        rw [List.filter_cons_of_pos (by simp [hit]), List.filter_cons_of_pos (by simp [hit]),
          resolvedFrom_cons, resolvedFrom_cons]
        have hcond : (c.tags == ["notion-link"] && c.parentItem == k) = false := by
          cases htags : (c.tags == ["notion-link"]) with
          | false => simp [htags]
          | true =>
            cases hpar : (c.parentItem == k) with
            | false => simp [hpar]
            | true =>
              have h3 : isNotionLinkNote k c = true :=
                (isNotionLinkNote_iff k c).mpr
                  ⟨beq_iff_eq.mp hpar, beq_iff_eq.mp hit, beq_iff_eq.mp htags⟩
              rw [hc] at h3
              exact absurd h3 (by simp)
        rw [if_neg (by simp [hcond]), if_neg (by simp [hcond])]
    | false =>
      rw [replaceFirst_cons_neg hpc]
      cases hit : (c.itemType == "note") with
      | false =>
        rw [List.filter_cons_of_neg (by simp [hit]), List.filter_cons_of_neg (by simp [hit])]
        exact htail d
      | true =>
        rw [List.filter_cons_of_pos (by simp [hit]), List.filter_cons_of_pos (by simp [hit]),
          resolvedFrom_cons, resolvedFrom_cons]
        exact htail _

theorem resolvedId_replaceFirst_body {ch : List ZNote} {pr : ZNote → Bool} {b : String}
    {k : String} (h : ∀ c ∈ ch, pr c = true → isNotionLinkNote k c = false) :
    resolvedId (replaceFirst ch pr (fun c => { c with note := b })) k = resolvedId ch k :=
  resolvedFrom_filter_replaceFirst h none

theorem resolvedId_overwrite_self {ch : List ZNote} {k : String} {b : String}
    (h1 : (ch.filter (isNotionLinkNote k)).length ≤ 1)
    (hex : ∃ n ∈ ch, isNotionLinkNote k n = true) :
    resolvedId (replaceFirst ch (isNotionLinkNote k) (fun c => { c with note := b })) k =
      find_notion_id b := by
  induction ch with
  | nil => simp at hex
  | cons c cs ih =>
    cases hpc : isNotionLinkNote k c with
    | true =>
      obtain ⟨hp, hi, ht⟩ := (isNotionLinkNote_iff k c).mp hpc
      rw [replaceFirst_cons_pos hpc]
      have hfe : (cs.filter (isNotionLinkNote k)) = [] := by
        rw [List.filter_cons_of_pos hpc] at h1
        have : (cs.filter (isNotionLinkNote k)).length = 0 := by
          simp only [List.length_cons] at h1
          omega
        exact List.length_eq_zero.mp this
      unfold resolvedId
      rw [List.filter_cons_of_pos (by simp [hi]), resolvedFrom_cons,
        if_pos (by simp [ht, hp])]
      apply resolvedFrom_of_no_match
      intro n hn
      have hmem := List.mem_filter.mp hn
      cases hcond : (n.tags == ["notion-link"] && n.parentItem == k) with
      | false => rfl
      | true =>
        have hconj := Bool.and_eq_true_iff.mp hcond
        have h3 : isNotionLinkNote k n = true :=
          (isNotionLinkNote_iff k n).mpr
            ⟨beq_iff_eq.mp hconj.2, beq_iff_eq.mp hmem.2, beq_iff_eq.mp hconj.1⟩
        have : n ∈ cs.filter (isNotionLinkNote k) := List.mem_filter.mpr ⟨hmem.1, h3⟩
        rw [hfe] at this
        simp at this
    | false =>
      rw [replaceFirst_cons_neg hpc]
      have h1' : (cs.filter (isNotionLinkNote k)).length ≤ 1 := by
        rw [List.filter_cons_of_neg (by simp [hpc])] at h1
        exact h1
      have hex' : ∃ n ∈ cs, isNotionLinkNote k n = true := by
        rcases hex with ⟨n, hn, hn2⟩
        rcases List.mem_cons.mp hn with h4 | h4
        · subst h4; rw [hpc] at hn2; exact absurd hn2 (by simp)
        · exact ⟨n, h4, hn2⟩
      rw [resolvedId_cons_skip hpc]
      exact ih h1' hex'

theorem find_notion_note_filter_some {ch : List ZNote} {pid : String} {x : ZNote}
    (h : find_notion_note (ch.filter (fun c => c.parentItem == pid)) = some x) :
    ∃ n ∈ ch, isNotionLinkNote pid n = true := by
  have hmem := List.mem_of_find?_eq_some h
  have hpred := List.find?_some h
  have hm2 := List.mem_filter.mp hmem
  have hconj := Bool.and_eq_true_iff.mp hpred
  refine ⟨x, hm2.1, (isNotionLinkNote_iff pid x).mpr
    ⟨beq_iff_eq.mp hm2.2, beq_iff_eq.mp hconj.1, beq_iff_eq.mp hconj.2⟩⟩

theorem find_notion_note_filter_none {ch : List ZNote} {pid : String}
    (h : find_notion_note (ch.filter (fun c => c.parentItem == pid)) = none) :
    ∀ n ∈ ch, isNotionLinkNote pid n = false := by
  intro n hn
  cases hlink : isNotionLinkNote pid n with
  | false => rfl
  | true =>
    obtain ⟨hp, hi, ht⟩ := (isNotionLinkNote_iff pid n).mp hlink
    have hmem : n ∈ ch.filter (fun c => c.parentItem == pid) :=
      List.mem_filter.mpr ⟨hn, by simp [hp]⟩
    have h2 := List.find?_eq_none.mp
      (show List.find? (fun c => c.itemType == "note" && c.tags == ["notion-link"])
          (ch.filter (fun c => c.parentItem == pid)) = none from h) n hmem
    exact absurd
      (show (n.itemType == "note" && n.tags == ["notion-link"]) = true by simp [hi, ht])
      (by simpa using h2)

theorem isNotionLinkNote_false_of_parent_ne {k : String} {n : ZNote}
    (h : n.parentItem ≠ k) : isNotionLinkNote k n = false := by
  cases hx : isNotionLinkNote k n with
  | false => rfl
  | true => exact absurd ((isNotionLinkNote_iff k n).mp hx).1 h

theorem update_note_resolvedId_other (np : Paper) (ch : List ZNote) (k : String)
    (hk : k ≠ np.zotero_item_id) :
    resolvedId (update_zotero_notion_note np ch) k = resolvedId ch k := by
  unfold update_zotero_notion_note
  cases hfn : find_notion_note (ch.filter (fun c => c.parentItem == np.zotero_item_id)) with
  | none =>
    apply resolvedId_append_skip
    exact isNotionLinkNote_false_of_parent_ne (by simpa using Ne.symm hk)
  | some x =>
    apply resolvedId_replaceFirst_body
    intro c _ hpc
    exact isNotionLinkNote_false_of_parent_ne
      (((isNotionLinkNote_iff np.zotero_item_id c).mp hpc).1 ▸ Ne.symm hk)

theorem update_note_resolvedId_self (np : Paper) (ch : List ZNote)
    (h1 : (ch.filter (isNotionLinkNote np.zotero_item_id)).length ≤ 1) :
    resolvedId (update_zotero_notion_note np ch) np.zotero_item_id =
      find_notion_id (note_body np) := by
  unfold update_zotero_notion_note
  cases hfn : find_notion_note (ch.filter (fun c => c.parentItem == np.zotero_item_id)) with
  | none =>
    apply resolvedId_append_self
    simp [isNotionLinkNote]
  | some x =>
    exact resolvedId_overwrite_self h1 (find_notion_note_filter_some hfn)

theorem update_note_count (np : Paper) (ch : List ZNote)
    (h1 : ∀ pid, (ch.filter (isNotionLinkNote pid)).length ≤ 1) :
    ∀ pid, ((update_zotero_notion_note np ch).filter (isNotionLinkNote pid)).length ≤ 1 := by
  intro pid
  unfold update_zotero_notion_note
  split
  next x heq =>
    rw [filter_replaceFirst_length ch (isNotionLinkNote np.zotero_item_id)
      (fun c => { c with note := note_body np }) (isNotionLinkNote pid) (fun c _ _ => rfl)]
    exact h1 pid
  next heq =>
    rw [List.filter_append]
    by_cases hpid : pid = np.zotero_item_id
    · have hall := find_notion_note_filter_none heq
      have hnil : ch.filter (isNotionLinkNote pid) = [] := by
        apply List.filter_eq_nil_iff.mpr
        intro n hn
        rw [hpid]
        simp [hall n hn]
      rw [hnil, List.nil_append]
      cases hone : isNotionLinkNote pid
        { itemType := "note", tags := ["notion-link"], note := note_body np,
          parentItem := np.zotero_item_id } with
      | false =>
        rw [List.filter_cons_of_neg (by simp [hone]), List.filter_nil]
        simp
      | true =>
        rw [List.filter_cons_of_pos hone, List.filter_nil]
        simp
    · have hskip : isNotionLinkNote pid
          { itemType := "note", tags := ["notion-link"], note := note_body np,
            parentItem := np.zotero_item_id } = false :=
        isNotionLinkNote_false_of_parent_ne (by simpa using Ne.symm hpid)
      rw [List.filter_cons_of_neg (by simp [hskip]), List.filter_nil, List.append_nil]
      exact h1 pid

theorem update_note_items (np : Paper) (ch : List ZNote) :
    ∀ n ∈ update_zotero_notion_note np ch, n ∈ ch ∨ n.parentItem = np.zotero_item_id := by
  intro n hn
  unfold update_zotero_notion_note at hn
  cases hfn : find_notion_note (ch.filter (fun c => c.parentItem == np.zotero_item_id)) with
  | none =>
    rw [hfn] at hn
    rcases List.mem_append.mp hn with h | h
    · exact Or.inl h
    · simp at h
      subst h
      exact Or.inr rfl
  | some x =>
    rw [hfn] at hn
    rcases mem_replaceFirst hn with h | ⟨y, hy, hpy, hny⟩
    · exact Or.inl h
    · subst hny
      exact Or.inr ((isNotionLinkNote_iff _ y).mp hpy).1

/-!  # Lemmas about the back-link parser -/

theorem notionUrlHead_eq :
    notionUrlHead =
      ['h', 't', 't', 'p', 's', ':', '/', '/', 'n', 'o', 't', 'i', 'o', 'n', '.', 's', 'o',
       '/'] := by decide

theorem isPrefixOf_append_self (l t : List Char) : l.isPrefixOf (l ++ t) = true :=
  List.isPrefixOf_iff_prefix.mpr (List.prefix_append l t)

theorem takeWhile_append_stop (p : Char → Bool) (l : List Char) (c : Char) (t : List Char)
    (hl : ∀ x ∈ l, p x = true) (hc : p c = false) :
    (l ++ c :: t).takeWhile p = l := by
  induction l with
  | nil => simp [List.takeWhile_cons, hc]
  | cons a as ih =>
    rw [List.cons_append, List.takeWhile_cons, if_pos (by simp [hl a (List.mem_cons_self a as)])]
    rw [ih (fun x hx => hl x (List.mem_cons_of_mem _ hx))]

theorem searchLink_cons_none {c : Char} {rest : List Char} (h : matchAt (c :: rest) = none) :
    searchLink (c :: rest) = searchLink rest := by
  simp [searchLink, h]

theorem matchAt_ne_h {c : Char} {rest : List Char} (h : c ≠ 'h') :
    matchAt (c :: rest) = none := by
  rw [matchAt, notionUrlHead_eq]
  rw [if_neg]
  intro hpre
  rw [show (['h', 't', 't', 'p', 's', ':', '/', '/', 'n', 'o', 't', 'i', 'o', 'n', '.', 's',
    'o', '/'].isPrefixOf (c :: rest)) = (('h' == c) && (['t', 't', 'p', 's', ':', '/', '/',
    'n', 'o', 't', 'i', 'o', 'n', '.', 's', 'o', '/'].isPrefixOf rest)) from rfl] at hpre
  have := (Bool.and_eq_true_iff.mp hpre).1
  exact h (beq_iff_eq.mp this).symm

theorem matchAt_head (x : List Char) :
    matchAt (notionUrlHead ++ x) =
      if (x.takeWhile idChar).isEmpty then none else some (x.takeWhile idChar) := by
  rw [matchAt, if_pos (isPrefixOf_append_self _ _), List.drop_left]

theorem searchLink_anchor (sid : List Char) (hne : sid ≠ [])
    (hch : ∀ c ∈ sid, idChar c = true) (t : List Char) :
    searchLink
      ('<' :: 'a' :: ' ' :: 'h' :: 'r' :: 'e' :: 'f' :: '=' :: '"' ::
        (notionUrlHead ++ (sid ++ '"' :: t))) = some sid := by
  have hstop : ((sid ++ '"' :: t).takeWhile idChar) = sid :=
    takeWhile_append_stop _ _ _ _ hch (by decide)
  have hmain : searchLink (notionUrlHead ++ (sid ++ '"' :: t)) = some sid := by
    rw [notionUrlHead_eq, List.cons_append]
    rw [searchLink]
    rw [show ('h' :: (['t', 't', 'p', 's', ':', '/', '/', 'n', 'o', 't', 'i', 'o', 'n', '.',
      's', 'o', '/'] ++ (sid ++ '"' :: t))) = (notionUrlHead ++ (sid ++ '"' :: t)) by
        rw [notionUrlHead_eq]; rfl]
    rw [matchAt_head, hstop, if_neg (by simp [List.isEmpty_iff, hne])]
  have hhr : ∀ rest : List Char, matchAt ('h' :: 'r' :: rest) = none := by
    intro rest
    rw [matchAt, notionUrlHead_eq, if_neg]
    intro hpre
    rw [show (['h', 't', 't', 'p', 's', ':', '/', '/', 'n', 'o', 't', 'i', 'o', 'n', '.', 's',
      'o', '/'].isPrefixOf ('h' :: 'r' :: rest)) = (('h' == 'h') && (('t' == 'r') &&
      (['t', 'p', 's', ':', '/', '/', 'n', 'o', 't', 'i', 'o', 'n', '.', 's', 'o',
        '/'].isPrefixOf rest))) from rfl] at hpre
    simp at hpre
  rw [searchLink_cons_none (matchAt_ne_h (by decide)),
    searchLink_cons_none (matchAt_ne_h (by decide)),
    searchLink_cons_none (matchAt_ne_h (by decide)),
    searchLink_cons_none (hhr _),
    searchLink_cons_none (matchAt_ne_h (by decide)),
    searchLink_cons_none (matchAt_ne_h (by decide)),
    searchLink_cons_none (matchAt_ne_h (by decide)),
    searchLink_cons_none (matchAt_ne_h (by decide)),
    searchLink_cons_none (matchAt_ne_h (by decide))]
  exact hmain

theorem stripHyphens_of_no_hyphen {s : String} (h : ∀ c ∈ s.data, c ≠ '-') :
    stripHyphens s = s := by
  unfold stripHyphens
  rw [List.filter_eq_self.mpr (fun c hc => by simp [h c hc])]

theorem find_notion_id_anchor (sid : String) (hne : sid ≠ "")
    (hch : ∀ c ∈ sid.data, idChar c = true) :
    find_notion_id ("<a href=\"" ++ ("https://notion.so/" ++ sid) ++ "\">Notion</a>") =
      some sid := by
  unfold find_notion_id
  have hdata : ("<a href=\"" ++ ("https://notion.so/" ++ sid) ++ "\">Notion</a>").data =
      '<' :: 'a' :: ' ' :: 'h' :: 'r' :: 'e' :: 'f' :: '=' :: '"' ::
        (notionUrlHead ++ (sid.data ++ '"' :: ">Notion</a>".data)) := by
    rw [data_append, data_append, data_append, List.append_assoc, List.append_assoc]
    rfl
  rw [hdata,
    searchLink_anchor sid.data (fun hd => hne ((data_eq_nil_iff sid).mp hd)) hch]
  exact congrArg some (mk_data sid)

theorem searchLink_some_sublist {l g : List Char} (h : searchLink l = some g) :
    notionUrlHead <:+: l := by
  induction l with
  | nil => simp [searchLink] at h
  | cons c rest ih =>
    cases hm : matchAt (c :: rest) with
    | some g2 =>
      unfold matchAt at hm
      cases hpre : notionUrlHead.isPrefixOf (c :: rest) with
      | false => rw [if_neg (by simp [hpre])] at hm; exact absurd hm (by simp)
      | true => exact (List.isPrefixOf_iff_prefix.mp hpre).isInfix
    | none =>
      rw [searchLink_cons_none hm] at h
      exact List.infix_cons (ih h)

/-- Claim C4, counterexample: on an input containing
`https://notion.so/abc123-def` the parser yields `abc123-def` with the
hyphen kept, not `abc123def` as the claim states. -/
theorem find_notion_id_counterexample :
    find_notion_id "https://notion.so/abc123-def" = some "abc123-def" ∧
    find_notion_id "https://notion.so/abc123-def" ≠ some "abc123def" := by
  constructor
  · decide
  · decide

theorem searchLink_none_of_no_match :
    ∀ l : List Char, (∀ s ∈ l.tails, matchAt s = none) → searchLink l = none := by
  intro l
  induction l with
  | nil => intro _; rfl
  | cons c rest ih =>
    intro h
    unfold searchLink
    rw [h (c :: rest) ((List.mem_tails _ _).mpr (List.suffix_refl _))]
    exact ih (fun s hs => h s ((List.mem_tails _ _).mpr
      (((List.mem_tails _ _).mp hs).trans (List.suffix_cons c rest))))

/-- Claim C4, amended: the identifier is returned verbatim (hyphens are NOT
stripped by `find_notion_id`; stripping happens only when composing the
board URL): the input `https://notion.so/abc123-def` yields `abc123-def`;
and any input containing no substring matching the URL pattern — no
position (suffix) at which the literal head followed by at least one
lowercase-alphanumeric-or-hyphen character occurs (`matchAt` fails
everywhere) — yields an absent identifier without raising an error. -/
theorem find_notion_id_amended :
    find_notion_id "https://notion.so/abc123-def" = some "abc123-def" ∧
    (∀ t : String, (∀ s ∈ t.data.tails, matchAt s = none) → find_notion_id t = none) := by
  constructor
  · decide
  · intro t hni
    unfold find_notion_id
    rw [searchLink_none_of_no_match t.data hni]
    rfl

theorem find_notion_id_amended_witness : find_notion_id "no link here" = none :=
  find_notion_id_amended.2 "no link here" (by decide)

/-- Claim C7: `truncate_text` with the default limit 2000 returns inputs of
at most 2000 characters unchanged; a longer input is cut to exactly 2000
characters, its first 1997 characters a prefix of the input, ending in
`...`. -/
theorem truncate_text_spec (t : String) :
    (t.length ≤ 2000 → truncate_text t 2000 = t) ∧
    (2000 < t.length →
      (truncate_text t 2000).length = 2000 ∧
      (truncate_text t 2000).data = t.data.take 1997 ++ ('.' :: '.' :: '.' :: []) ∧
      (truncate_text t 2000).data.take 1997 <+: t.data) := by
  constructor
  · exact fun h => truncate_text_of_le h
  · intro h
    have hn : ¬ (t.length ≤ 2000) := by omega
    have hlen : 2000 < t.data.length := by
      rw [length_eq_data] at h
      exact h
    have hdat : (truncate_text t 2000).data = t.data.take 1997 ++ ('.' :: '.' :: '.' :: []) := by
      unfold truncate_text
      rw [if_neg hn]
      rfl
    refine ⟨?_, hdat, ?_⟩
    · rw [length_eq_data, hdat, List.length_append, List.length_take]
      simp
      omega
    · rw [hdat, List.take_append_of_le_length (by rw [List.length_take]; omega),
        List.take_take]
      exact List.take_prefix _ _

theorem truncate_text_spec_witness :
    truncate_text "ab" 2000 = "ab" ∧
    (truncate_text (String.mk (List.replicate 2500 'a')) 2000).length = 2000 :=
  ⟨(truncate_text_spec "ab").1 (by decide),
   ((truncate_text_spec (String.mk (List.replicate 2500 'a'))).2
     (by rw [length_eq_data]; rw [show (String.mk (List.replicate 2500 'a')).data =
       List.replicate 2500 'a' from rfl, List.length_replicate]; omega)).1⟩

theorem except_isOk_map {α β : Type} (f : α → β) (x : Except String α) :
    (x.map f).isOk = x.isOk := by
  cases x <;> rfl

mutual
theorem decode_isOk : ∀ o : NotionObj,
    (notion_object_to_str o).isOk = (allRecognized o && noNullSelect o)
  | NotionObj.title parts => by
    rw [show notion_object_to_str (NotionObj.title parts) =
      (decodeParts parts).map (fun l => String.intercalate "" l) from rfl]
    rw [except_isOk_map, decodeParts_isOk parts]
    rfl
  | NotionObj.text content => rfl
  | NotionObj.rich_text parts => by
    rw [show notion_object_to_str (NotionObj.rich_text parts) =
      (decodeParts parts).map (fun l => String.intercalate "" l) from rfl]
    rw [except_isOk_map, decodeParts_isOk parts]
    rfl
  | NotionObj.select payload => by cases payload <;> rfl
  | NotionObj.multi_select parts => by
    rw [show notion_object_to_str (NotionObj.multi_select parts) =
      (decodeParts parts).map (fun l => String.intercalate ", " l) from rfl]
    rw [except_isOk_map, decodeParts_isOk parts]
    rfl
  | NotionObj.date payload => by cases payload <;> rfl
  | NotionObj.url value => rfl
  | NotionObj.other tag => rfl

theorem decodeParts_isOk : ∀ l : List NotionObj,
    (decodeParts l).isOk = (allRecognizedList l && noNullSelectList l)
  | [] => rfl
  | x :: xs => by
    have hx := decode_isOk x
    have hxs := decodeParts_isOk xs
    rw [show decodeParts (x :: xs) =
      (match notion_object_to_str x with
       | Except.error e => Except.error e
       | Except.ok s =>
         match decodeParts xs with
         | Except.error e => Except.error e
         | Except.ok l => Except.ok (s :: l)) from rfl]
    rw [show allRecognizedList (x :: xs) = (allRecognized x && allRecognizedList xs) from rfl]
    rw [show noNullSelectList (x :: xs) = (noNullSelect x && noNullSelectList xs) from rfl]
    cases he : notion_object_to_str x with
    | error e =>
      rw [he] at hx
      have hx2 : (allRecognized x && noNullSelect x) = false := hx.symm
      show false = ((allRecognized x && allRecognizedList xs) &&
        (noNullSelect x && noNullSelectList xs))
      cases haR : allRecognized x <;> cases hnN : noNullSelect x <;>
        rw [haR, hnN] at hx2 <;> simp_all
    | ok s =>
      rw [he] at hx
      have hx2 : (allRecognized x && noNullSelect x) = true := hx.symm
      cases hes : decodeParts xs with
      | error e =>
        rw [hes] at hxs
        have hxs2 : (allRecognizedList xs && noNullSelectList xs) = false := hxs.symm
        show false = ((allRecognized x && allRecognizedList xs) &&
          (noNullSelect x && noNullSelectList xs))
        obtain ⟨h1, h2⟩ := Bool.and_eq_true_iff.mp hx2
        cases haRL : allRecognizedList xs <;> cases hnNL : noNullSelectList xs <;>
          rw [haRL, hnNL] at hxs2 <;> simp_all
      | ok l =>
        rw [hes] at hxs
        have hxs2 : (allRecognizedList xs && noNullSelectList xs) = true := hxs.symm
        show true = ((allRecognized x && allRecognizedList xs) &&
          (noNullSelect x && noNullSelectList xs))
        obtain ⟨h1, h2⟩ := Bool.and_eq_true_iff.mp hx2
        obtain ⟨h3, h4⟩ := Bool.and_eq_true_iff.mp hxs2
        rw [h1, h2, h3, h4]
        rfl
end

/-- Claim C8, counterexample: an empty `select` cell — a recognized type
tag whose payload is null, the Notion encoding of an unset select — makes
the decoder raise (the Python `obj["select"]["name"]` indexes into `None`,
a `TypeError`), so a fatal error does NOT imply an unrecognized tag. -/
theorem notion_decode_fatal_counterexample :
    allRecognized (NotionObj.select none) = true ∧
    notion_object_to_str (NotionObj.select none) =
      Except.error "TypeError: NoneType object is not subscriptable" :=
  ⟨rfl, rfl⟩

/-- Claim C8, amended: decoding a Board property cell fails exactly when
the cell contains an unrecognized type tag or a `select` node with a null
payload; otherwise the cell decodes to a value (never silently coerced to
a default), and a `date` cell with a null payload decodes to the empty
string rather than failing. -/
theorem notion_decode_fatal_amended :
    (∀ o : NotionObj,
      (notion_object_to_str o).isOk = (allRecognized o && noNullSelect o)) ∧
    notion_object_to_str (NotionObj.date none) = Except.ok "" :=
  ⟨decode_isOk, rfl⟩

/-!  # Per-paper claims on the reconciliation step -/

/-- Claim C3, code evaluation at the failing inputs: an unparseable
non-empty date raises (pandas `to_datetime` with its default error policy),
and an absent date key raises a lookup error — the conversion does not fall
back to an absent `published_at` in those cases.  Only a null-like (empty)
date yields a Paper with `published_at` absent. -/
theorem zotero_item_to_paper_date_errors :
    zotero_item_to_paper exItemBadDate = Except.error "DateParseError: n.d." ∧
    zotero_item_to_paper exItemAbsentDate = Except.error "KeyError: date" ∧
    (zotero_item_to_paper exItemMissingDate).map (fun p => p.published_at) =
      Except.ok none := by
  refine ⟨by decide, by decide, by decide⟩

/-- Claim C2, counterexample: a Board counterpart exists and differs in
content, while the Library paper carries no `board_id`; the claim requires
an update issued against the counterpart's `board_id`, but the code passes
the Library paper unchanged to `update_notion_page` and the call fails with
a null page id. -/
theorem update_branch_counterexample :
    dictGet (buildDict [notion_page_to_paper exRowB]) exPaperNoId.zotero_item_id =
      some (notion_page_to_paper exRowB) ∧
    exPaperNoId.zotero_eq (notion_page_to_paper exRowB) = false ∧
    exPaperNoId.notion_id = none ∧
    (notion_page_to_paper exRowB).notion_id = some "bbb" ∧
    syncStep (buildDict [notion_page_to_paper exRowB]) (exWorldB, ⟨0, 0, 0⟩) exPaperNoId =
      Except.error "update_notion_page: page_id is None" := by
  refine ⟨by decide, by decide, by decide, by decide, by decide⟩

/-- Claim C2, amended: in the update branch the Board update is issued
against the row identified by the Library-side paper's own `board_id` (the
paper is passed unchanged to `update_notion_page`): when that id is absent
the call fails instead of updating the counterpart, and when it is present
the row whose stripped id matches it — the counterpart's row only if the
ids coincide — is the one rewritten, with exactly one update counted and no
back-link write. -/
theorem update_uses_library_id (byId : List (String × Paper)) (w : World) (c : WriteCounts)
    (p np : Paper)
    (hfind : dictGet byId p.zotero_item_id = some np)
    (hneq : p.zotero_eq np = false) :
    (p.notion_id = none →
      syncStep byId (w, c) p = Except.error "update_notion_page: page_id is None") ∧
    (∀ pid r, p.notion_id = some pid →
      w.notion.find? (fun row => stripHyphens row.id == pid) = some r →
      syncStep byId (w, c) p =
        Except.ok
          ({ w with notion := (replaceFirst w.notion (fun row => stripHyphens row.id == pid)
              (fun row => updateRow row (paper_to_notion_properties p))) },
           { c with updates := c.updates + 1 })) := by
  have hne : p ≠ np := by
    intro he
    rw [he, zotero_eq_refl] at hneq
    exact absurd hneq (by simp)
  constructor
  · intro hnone
    simp only [syncStep, hfind]
    rw [if_neg hne]
    simp only [hneq, Bool.not_false, if_true]
    simp only [update_notion_page, hnone]
  · intro pid r hpid hfr
    have h1 := List.find?_some hfr
    have hre : stripHyphens r.id = pid := beq_iff_eq.mp h1
    simp only [syncStep, hfind]
    rw [if_neg hne]
    simp only [hneq, Bool.not_false, if_true]
    simp only [update_notion_page, hpid, hfr]
    rw [if_neg (by simp [notion_page_to_paper, updateRow, hpid, hre])]

theorem update_uses_library_id_witness :
    syncStep (buildDict [notion_page_to_paper exRowB]) (exWorldB, ⟨0, 0, 0⟩) exPaperWithId =
      Except.ok
        ({ exWorldB with notion := (replaceFirst exWorldB.notion
            (fun row => stripHyphens row.id == "bbb")
            (fun row => updateRow row (paper_to_notion_properties exPaperWithId))) },
         (⟨0, 0 + 1, 0⟩ : WriteCounts)) :=
  (update_uses_library_id (buildDict [notion_page_to_paper exRowB]) exWorldB ⟨0, 0, 0⟩
    exPaperWithId (notion_page_to_paper exRowB) (by decide) (by decide)).2
    "bbb" exRowB (by decide) (by decide)

/-- Claim C5, counterexample: a Library paper with an empty-string `link`
and no Board counterpart is created, but the payload drops the falsy link,
so the decoded created row is not content-equal to the source paper. -/
theorem create_path_counterexample :
    dictGet (buildDict []) exPaperEmptyLink.zotero_item_id = none ∧
    create_notion_page exWorldEmpty exPaperEmptyLink =
      Except.ok
        (World.mk (ZoteroState.mk [] [])
          [createRow "abc" (paper_to_notion_properties exPaperEmptyLink)] [],
         exCreatedEmptyLink) ∧
    exCreatedEmptyLink.link = none ∧
    exPaperEmptyLink.link = some "" ∧
    exCreatedEmptyLink.zotero_eq exPaperEmptyLink = false := by
  refine ⟨by decide, by decide, by decide, by decide, by decide⟩

/-- Claim C5, amended: for a Library paper with no Board counterpart the
step performs exactly one create call and exactly one back-link write (and
no update), and the Paper decoded from the create response is content-equal
to the source provided its rich-text fields fit the 2000-character limit
and its `link` / `published_at` are not the (falsy, hence dropped)
empty string. -/
theorem create_path_spec (byId : List (String × Paper)) (w : World) (c : WriteCounts)
    (p : Paper) (i : String) (rest : List String)
    (hfind : dictGet byId p.zotero_item_id = none)
    (hsup : w.nextIds = i :: rest) :
    syncStep byId (w, c) p =
      Except.ok
        (World.mk
          (ZoteroState.mk w.zotero.items
            (update_zotero_notion_note
              (notion_page_to_paper (createRow i (paper_to_notion_properties p)))
              w.zotero.children))
          (w.notion ++ [createRow i (paper_to_notion_properties p)])
          rest,
         { c with creates := c.creates + 1, noteWrites := c.noteWrites + 1 }) ∧
    (p.authors.length ≤ 2000 → p.zotero_item_id.length ≤ 2000 →
     p.link ≠ some "" → p.published_at ≠ some "" →
     (notion_page_to_paper (createRow i (paper_to_notion_properties p))).zotero_eq p = true) := by
  constructor
  · simp only [syncStep, hfind, create_notion_page, hsup]
  · intro ha hz hl hp
    apply (zotero_eq_iff _ _).mpr
    refine ⟨rfl, truncate_text_of_le ha, ?_, ?_, rfl, truncate_text_of_le hz⟩
    · cases hpl : p.link with
      | none => simp [notion_page_to_paper, createRow, paper_to_notion_properties, hpl]
      | some l =>
        have hlne : l ≠ "" := fun he => hl (by rw [hpl, he])
        simp [notion_page_to_paper, createRow, paper_to_notion_properties, hpl, hlne]
    · cases hpp : p.published_at with
      | none => simp [notion_page_to_paper, createRow, paper_to_notion_properties, hpp]
      | some s =>
        have hsne : s ≠ "" := fun he => hp (by rw [hpp, he])
        simp [notion_page_to_paper, createRow, paper_to_notion_properties, hpp, hsne]

theorem create_path_spec_witness :
    syncStep (buildDict []) (exWorldEmpty, ⟨0, 0, 0⟩) exPaperNoId =
      Except.ok
        (World.mk
          (ZoteroState.mk exWorldEmpty.zotero.items
            (update_zotero_notion_note
              (notion_page_to_paper (createRow "abc" (paper_to_notion_properties exPaperNoId)))
              exWorldEmpty.zotero.children))
          (exWorldEmpty.notion ++ [createRow "abc" (paper_to_notion_properties exPaperNoId)])
          [],
         (⟨0 + 1, 0, 0 + 1⟩ : WriteCounts)) ∧
    (notion_page_to_paper
      (createRow "abc" (paper_to_notion_properties exPaperNoId))).zotero_eq exPaperNoId =
        true :=
  ⟨(create_path_spec (buildDict []) exWorldEmpty ⟨0, 0, 0⟩ exPaperNoId "abc" []
      (by decide) (by decide)).1,
   (create_path_spec (buildDict []) exWorldEmpty ⟨0, 0, 0⟩ exPaperNoId "abc" []
      (by decide) (by decide)).2 (by decide) (by decide) (by decide) (by decide)⟩

/-- Claim C6: for a Library paper whose Board counterpart is content-equal
but whose board id differs from the one resolved on the Library side, the
step performs zero Board update calls and exactly one Library back-link
write (with the counterpart paper). -/
theorem link_only_repair (byId : List (String × Paper)) (w : World) (c : WriteCounts)
    (p np : Paper)
    (hfind : dictGet byId p.zotero_item_id = some np)
    (heq : p.zotero_eq np = true)
    (hid : p.notion_id ≠ np.notion_id) :
    syncStep byId (w, c) p =
      Except.ok
        ({ w with zotero :=
            { w.zotero with children := update_zotero_notion_note np w.zotero.children } },
         { c with noteWrites := c.noteWrites + 1 }) := by
  have hne : p ≠ np := fun he => hid (by rw [he])
  simp only [syncStep, hfind]
  rw [if_neg hne]
  simp only [heq, Bool.not_true, Bool.false_eq_true, if_false]
  rw [if_pos hid]

theorem link_only_repair_witness :
    syncStep (buildDict [notion_page_to_paper exRowSync]) (exWorldSync, ⟨0, 0, 0⟩)
        exPaperRepair =
      Except.ok
        ({ exWorldSync with zotero :=
            { exWorldSync.zotero with children := (update_zotero_notion_note
                (notion_page_to_paper exRowSync) exWorldSync.zotero.children) } },
         (⟨0, 0, 0 + 1⟩ : WriteCounts)) :=
  link_only_repair (buildDict [notion_page_to_paper exRowSync]) exWorldSync ⟨0, 0, 0⟩
    exPaperRepair (notion_page_to_paper exRowSync) (by decide) (by decide) (by decide)

/-!  # Exhaustive case analysis of one reconciliation step -/

theorem paper_eq_of_zotero_eq_of_id_eq {p np : Paper} (hze : p.zotero_eq np = true)
    (hid : p.notion_id = np.notion_id) : p = np := by
  obtain ⟨h1, h2, h3, h4, h5, h6⟩ := (zotero_eq_iff p np).mp hze
  cases p
  cases np
  simp_all

theorem syncStep_cases (byId : List (String × Paper)) (wc wc1 : World × WriteCounts)
    (p : Paper) (hstep : syncStep byId wc p = Except.ok wc1) :
    (∃ i rest, wc.1.nextIds = i :: rest ∧ dictGet byId p.zotero_item_id = none ∧
      wc1 = (World.mk
        (ZoteroState.mk wc.1.zotero.items
          (update_zotero_notion_note
            (notion_page_to_paper (createRow i (paper_to_notion_properties p)))
            wc.1.zotero.children))
        (wc.1.notion ++ [createRow i (paper_to_notion_properties p)]) rest,
        WriteCounts.mk (wc.2.creates + 1) wc.2.updates (wc.2.noteWrites + 1))) ∨
    (∃ np, dictGet byId p.zotero_item_id = some np ∧ p = np ∧ wc1 = wc) ∨
    (∃ np, dictGet byId p.zotero_item_id = some np ∧ p ≠ np ∧ p.zotero_eq np = true ∧
      p.notion_id ≠ np.notion_id ∧
      wc1 = (World.mk
        (ZoteroState.mk wc.1.zotero.items (update_zotero_notion_note np wc.1.zotero.children))
        wc.1.notion wc.1.nextIds,
        WriteCounts.mk wc.2.creates wc.2.updates (wc.2.noteWrites + 1))) ∨
    (∃ np pid r, dictGet byId p.zotero_item_id = some np ∧ p.zotero_eq np = false ∧
      p.notion_id = some pid ∧
      wc.1.notion.find? (fun row => stripHyphens row.id == pid) = some r ∧
      wc1 = (World.mk wc.1.zotero
        (replaceFirst wc.1.notion (fun row => stripHyphens row.id == pid)
          (fun row => updateRow row (paper_to_notion_properties p)))
        wc.1.nextIds,
        WriteCounts.mk wc.2.creates (wc.2.updates + 1) wc.2.noteWrites)) := by
  cases hfind : dictGet byId p.zotero_item_id with
  | none =>
    cases hsup : wc.1.nextIds with
    | nil =>
      have hrun : syncStep byId wc p =
          Except.error "create_notion_page: no page id available" := by
        simp only [syncStep, hfind, create_notion_page, hsup]
      rw [hrun] at hstep
      exact absurd hstep (by simp)
    | cons i rest =>
      left
      refine ⟨i, rest, rfl, rfl, ?_⟩
      have hrun : syncStep byId wc p =
          Except.ok
            (World.mk
              (ZoteroState.mk wc.1.zotero.items
                (update_zotero_notion_note
                  (notion_page_to_paper (createRow i (paper_to_notion_properties p)))
                  wc.1.zotero.children))
              (wc.1.notion ++ [createRow i (paper_to_notion_properties p)]) rest,
              WriteCounts.mk (wc.2.creates + 1) wc.2.updates (wc.2.noteWrites + 1)) := by
        simp only [syncStep, hfind, create_notion_page, hsup]
      rw [hrun] at hstep
      injection hstep with h
      exact h.symm
  | some np =>
    by_cases heq : p = np
    · right; left
      refine ⟨np, rfl, heq, ?_⟩
      have hrun : syncStep byId wc p = Except.ok wc := by
        simp only [syncStep, hfind]
        rw [if_pos heq]
      rw [hrun] at hstep
      injection hstep with h
      exact h.symm
    · cases hze : p.zotero_eq np with
      | true =>
        have hid : p.notion_id ≠ np.notion_id := by
          intro h
          exact heq (paper_eq_of_zotero_eq_of_id_eq hze h)
        right; right; left
        refine ⟨np, rfl, heq, hze, hid, ?_⟩
        have hrun : syncStep byId wc p =
            Except.ok
              (World.mk
                (ZoteroState.mk wc.1.zotero.items
                  (update_zotero_notion_note np wc.1.zotero.children))
                wc.1.notion wc.1.nextIds,
                WriteCounts.mk wc.2.creates wc.2.updates (wc.2.noteWrites + 1)) := by
          simp only [syncStep, hfind]
          rw [if_neg heq]
          simp only [hze, Bool.not_true, Bool.false_eq_true, if_false]
          rw [if_pos hid]
        rw [hrun] at hstep
        injection hstep with h
        exact h.symm
      | false =>
        cases hpid : p.notion_id with
        | none =>
          have hrun : syncStep byId wc p =
              Except.error "update_notion_page: page_id is None" := by
            simp only [syncStep, hfind]
            rw [if_neg heq]
            simp only [hze, Bool.not_false, if_true]
            simp only [update_notion_page, hpid]
          rw [hrun] at hstep
          exact absurd hstep (by simp)
        | some pid =>
          cases hfr : wc.1.notion.find? (fun row => stripHyphens row.id == pid) with
          | none =>
            have hrun : syncStep byId wc p =
                Except.error "update_notion_page: page not found" := by
              simp only [syncStep, hfind]
              rw [if_neg heq]
              simp only [hze, Bool.not_false, if_true]
              simp only [update_notion_page, hpid, hfr]
            rw [hrun] at hstep
            exact absurd hstep (by simp)
          | some r =>
            right; right; right
            refine ⟨np, pid, r, rfl, hze, rfl, hfr, ?_⟩
            have h1 := List.find?_some hfr
            have hre : stripHyphens r.id = pid := beq_iff_eq.mp h1
            have hrun : syncStep byId wc p =
                Except.ok
                  (World.mk wc.1.zotero
                    (replaceFirst wc.1.notion (fun row => stripHyphens row.id == pid)
                      (fun row => updateRow row (paper_to_notion_properties p)))
                    wc.1.nextIds,
                    WriteCounts.mk wc.2.creates (wc.2.updates + 1) wc.2.noteWrites) := by
              simp only [syncStep, hfind]
              rw [if_neg heq]
              simp only [hze, Bool.not_false, if_true]
              simp only [update_notion_page, hpid, hfr]
              rw [if_neg (by simp [notion_page_to_paper, updateRow, hpid, hre])]
            rw [hrun] at hstep
            injection hstep with h
            exact h.symm

/-!  # Frame property of the pass on counterpart-less rows -/

theorem fold_preserves_row (byId : List (String × Paper)) (k : Nat) (r : NotionRow) :
    ∀ (l : List Paper) (wc res : World × WriteCounts),
      (∀ p ∈ l, p.notion_id ≠ some (stripHyphens r.id)) →
      List.foldlM (syncStep byId) wc l = Except.ok res →
      wc.1.notion[k]? = some r → res.1.notion[k]? = some r := by
  intro l
  induction l with
  | nil =>
    intro wc res h hfold hrow
    simp only [List.foldlM_nil] at hfold
    injection hfold with h2
    rw [← h2]
    exact hrow
  | cons p ps ih =>
    intro wc res h hfold hrow
    rw [List.foldlM_cons] at hfold
    cases hstep : syncStep byId wc p with
    | error e =>
      rw [hstep] at hfold
      have hcontra : (Except.error e : Except String (World × WriteCounts)) =
          Except.ok res := hfold
      exact absurd hcontra (by simp)
    | ok wc1 =>
      rw [hstep] at hfold
      have hfold' : List.foldlM (syncStep byId) wc1 ps = Except.ok res := hfold
      apply ih wc1 res (fun q hq => h q (List.mem_cons_of_mem _ hq)) hfold'
      have hk : k < wc.1.notion.length := by
        rcases List.getElem?_eq_some.mp hrow with ⟨h1, _⟩
        exact h1
      rcases syncStep_cases byId wc wc1 p hstep with
        ⟨i, rest, _, _, hwc1⟩ | ⟨np, _, _, hwc1⟩ | ⟨np, _, _, _, _, hwc1⟩ |
        ⟨np, pid, rf, _, _, hpid, _, hwc1⟩
      · rw [hwc1]
        rw [show (World.mk
          (ZoteroState.mk wc.1.zotero.items
            (update_zotero_notion_note
              (notion_page_to_paper (createRow i (paper_to_notion_properties p)))
              wc.1.zotero.children))
          (wc.1.notion ++ [createRow i (paper_to_notion_properties p)]) rest,
          WriteCounts.mk (wc.2.creates + 1) wc.2.updates (wc.2.noteWrites + 1)).1.notion =
          wc.1.notion ++ [createRow i (paper_to_notion_properties p)] from rfl]
        rw [List.getElem?_append_left hk]
        exact hrow
      · rw [hwc1]; exact hrow
      · rw [hwc1]; exact hrow
      · rw [hwc1]
        apply getElem?_replaceFirst_of_not hrow
        have hne := h p (List.mem_cons_self p ps)
        rw [hpid] at hne
        have : stripHyphens r.id ≠ pid := fun he => hne (by rw [he])
        simp [this]

/-- Claim C9, counterexample: row `xxx` of the Board has no Library
counterpart (its external id `k9` matches no Library paper), yet the run
rewrites it, because the Library paper `k1` carries a stale back-link
pointing at `xxx` while its true counterpart `bbb` differs in content — the
update goes to the row named by the Library-side id. -/
theorem untouched_row_counterexample :
    get_all_zotero_papers exWorldStale.zotero = Except.ok [exPaperStale] ∧
    exPaperStale.zotero_item_id ≠ exRowX.zotero_item_id ∧
    exWorldStale.notion[1]? = some exRowX ∧
    synchronize exWorldStale =
      Except.ok ({ exWorldStale with notion := [exRowB, exRowXAfter] }, ⟨0, 1, 0⟩) ∧
    exRowXAfter ≠ exRowX := by
  refine ⟨by decide, by decide, by decide, by decide, by decide⟩

/-- Claim C9, amended: a Board row whose external id matches no Library
paper is never deleted and never targeted by a create; it is written only
when some Library paper's resolved board id points at it (a stale
back-link).  Absent such a stale pointer, the row is unchanged by the whole
pass. -/
theorem untouched_row_frame (w : World) (ps : List Paper) (w' : World) (c : WriteCounts)
    (hget : get_all_zotero_papers w.zotero = Except.ok ps)
    (hrun : synchronize w = Except.ok (w', c))
    (k : Nat) (r : NotionRow)
    (hk : w.notion[k]? = some r)
    (hnokey : ∀ p ∈ ps, p.zotero_item_id ≠ r.zotero_item_id)
    (hnoid : ∀ p ∈ ps, p.notion_id ≠ some (stripHyphens r.id)) :
    w'.notion[k]? = some r := by
  simp only [synchronize, hget] at hrun
  exact fold_preserves_row _ k r ps (w, ⟨0, 0, 0⟩) (w', c) hnoid hrun hk

theorem untouched_row_frame_witness : exWorldSync2.notion[1]? = some exRowX :=
  untouched_row_frame exWorldSync2 [exPaperSync] exWorldSync2 ⟨0, 0, 0⟩ (by decide)
    (by decide) 1 exRowX (by decide) (by decide) (by decide)

/-!  # Characterization of `get_all_zotero_papers` -/

theorem string_beq_comm (a b : String) : (a == b) = (b == a) := by
  by_cases hab : a = b
  · rw [hab]
  · rw [beq_eq_false_iff_ne.mpr hab, beq_eq_false_iff_ne.mpr (Ne.symm hab)]

theorem mem_dictInsert {d : List (String × Paper)} {k : String} {v : Paper}
    {x : String × Paper} (h : x ∈ dictInsert d k v) : x = (k, v) ∨ x ∈ d := by
  unfold dictInsert at h
  cases hany : d.any (fun kv => kv.1 == k) with
  | true =>
    rw [if_pos (by simp [hany])] at h
    rcases List.mem_map.mp h with ⟨kv, hkv, hx⟩
    by_cases hk : (kv.1 == k) = true
    · rw [if_pos hk] at hx
      exact Or.inl (by rw [← hx, beq_iff_eq.mp hk])
    · rw [if_neg hk] at hx
      exact Or.inr (hx ▸ hkv)
  | false =>
    rw [if_neg (by simp [hany])] at h
    rcases List.mem_append.mp h with h2 | h2
    · exact Or.inr h2
    · simp at h2
      exact Or.inl (by rw [h2])

theorem zotero_item_to_paper_shape {it : ZItem} {p : Paper}
    (h : zotero_item_to_paper it = Except.ok p) :
    p.zotero_item_id = it.key ∧ p.notion_id = none ∧ p.link = some it.url := by
  unfold zotero_item_to_paper at h
  split at h
  · exact absurd h (by simp)
  · split at h
    · exact absurd h (by simp)
    · injection h with h2
      rw [← h2]
      exact ⟨rfl, rfl, rfl⟩

theorem buildTop_aligned :
    ∀ (items : List ZItem) (d : List (String × Paper)), buildTop items = Except.ok d →
      ∀ kv ∈ d, kv.1 = kv.2.zotero_item_id ∧ kv.2.notion_id = none ∧ kv.2.link ≠ none := by
  intro items
  induction items with
  | nil =>
    intro d h kv hkv
    injection h with h2
    rw [← h2] at hkv
    simp at hkv
  | cons it rest ih =>
    intro d h kv hkv
    unfold buildTop at h
    cases hp : zotero_item_to_paper it with
    | error e => rw [hp] at h; exact absurd h (by simp)
    | ok p =>
      rw [hp] at h
      cases hb : buildTop rest with
      | error e => rw [hb] at h; exact absurd h (by simp)
      | ok d2 =>
        rw [hb] at h
        injection h with h2
        rw [← h2] at hkv
        rcases mem_dictInsert hkv with h3 | h3
        · rw [h3]
          obtain ⟨hs1, hs2, hs3⟩ := zotero_item_to_paper_shape hp
          exact ⟨hs1.symm, hs2, by simp [hs3]⟩
        · exact ih d2 hb kv h3

theorem applyNote_eq_map (d : List (String × Paper)) (n : ZNote) :
    applyNote d n =
      d.map (fun kv =>
        if (n.tags == ["notion-link"] && kv.1 == n.parentItem) = true then
          (kv.1, { kv.2 with notion_id := find_notion_id n.note })
        else kv) := by
  unfold applyNote
  cases ht : (n.tags == ["notion-link"]) with
  | false =>
    rw [if_neg (by simp [ht])]
    rw [List.map_congr_left (fun kv _ => by rw [if_neg (by simp [ht])])]
    exact (List.map_id' d).symm ▸ rfl
  | true =>
    rw [if_pos (by simp [ht])]
    cases hany : d.any (fun kv => kv.1 == n.parentItem) with
    | true =>
      rw [if_pos (by simp [hany])]
      apply List.map_congr_left
      intro kv _
      cases hk : (kv.1 == n.parentItem) with
      | true => rw [if_pos (by simp [hk]), if_pos (by simp [ht, hk])]
      | false => rw [if_neg (by simp [hk]), if_neg (by simp [ht, hk])]
    | false =>
      rw [if_neg (by simp [hany])]
      rw [List.map_congr_left (fun kv hkv => by
        rw [if_neg (by simp [List.any_eq_false.mp hany kv hkv])])]
      exact (List.map_id' d).symm ▸ rfl

theorem foldl_applyNote (notes : List ZNote) :
    ∀ d : List (String × Paper),
      notes.foldl applyNote d =
        d.map (fun kv =>
          (kv.1, { kv.2 with notion_id := resolvedFrom notes kv.1 kv.2.notion_id })) := by
  induction notes with
  | nil =>
    intro d
    rw [List.foldl_nil]
    rw [show (fun (kv : String × Paper) =>
      (kv.1, { kv.2 with notion_id := resolvedFrom [] kv.1 kv.2.notion_id })) = id from
      funext fun kv => rfl]
    rw [List.map_id]
  | cons n notes ih =>
    intro d
    rw [List.foldl_cons, ih (applyNote d n), applyNote_eq_map, List.map_map]
    apply List.map_congr_left
    intro kv _
    rw [resolvedFrom_cons]
    simp only [Function.comp]
    cases hc : (n.tags == ["notion-link"] && kv.1 == n.parentItem) with
    | true =>
      rw [if_pos (by simp [hc])]
      rw [if_pos (by
        have h2 := Bool.and_eq_true_iff.mp hc
        simp [h2.1, string_beq_comm n.parentItem kv.1, h2.2])]
    | false =>
      rw [if_neg (by simp [hc])]
      rw [if_neg (by
        intro h2
        have h3 := Bool.and_eq_true_iff.mp h2
        rw [show (n.tags == ["notion-link"] && kv.1 == n.parentItem) =
          (n.tags == ["notion-link"] && n.parentItem == kv.1) from by
            rw [string_beq_comm kv.1 n.parentItem], h3.1, h3.2] at hc
        exact absurd hc (by simp))]

theorem get_all_characterized {z : ZoteroState} {ps : List Paper}
    (h : get_all_zotero_papers z = Except.ok ps) :
    ∃ d, buildTop z.items = Except.ok d ∧
      (∀ kv ∈ d, kv.1 = kv.2.zotero_item_id ∧ kv.2.notion_id = none ∧ kv.2.link ≠ none) ∧
      ps = d.map (fun kv =>
        { kv.2 with notion_id :=
            resolvedFrom (z.children.filter (fun c => c.itemType == "note")) kv.1 none }) := by
  unfold get_all_zotero_papers at h
  cases hb : buildTop z.items with
  | error e => rw [hb] at h; exact absurd h (by simp)
  | ok d =>
    rw [hb] at h
    injection h with h2
    refine ⟨d, rfl, buildTop_aligned z.items d hb, ?_⟩
    rw [← h2, foldl_applyNote, List.map_map]
    apply List.map_congr_left
    intro kv hkv
    have halign := buildTop_aligned z.items d hb kv hkv
    simp only [Function.comp]
    rw [halign.2.1]

theorem resolvedFrom_eq_getLast (k : String) :
    ∀ (notes : List ZNote) (d : Option String),
      resolvedFrom notes k d =
        match (notes.filter (fun n => n.tags == ["notion-link"] && n.parentItem == k)).getLast?
          with
        | some n => find_notion_id n.note
        | none => d := by
  intro notes
  induction notes using List.reverseRecOn with
  | nil => intro d; rfl
  | append_singleton ns n ih =>
    intro d
    rw [show resolvedFrom (ns ++ [n]) k d =
      resolvedFrom [n] k (resolvedFrom ns k d) from List.foldl_append _ _ _ _]
    rw [List.filter_append]
    cases hc : (n.tags == ["notion-link"] && n.parentItem == k) with
    | true =>
      have hfil : List.filter (fun n => n.tags == ["notion-link"] && n.parentItem == k) [n] =
          [n] := by
        simp [List.filter_cons, hc]
      rw [hfil, List.getLast?_concat]
      rw [resolvedFrom_cons, if_pos (by simp [hc])]
      rfl
    | false =>
      have hfil : List.filter (fun n => n.tags == ["notion-link"] && n.parentItem == k) [n] =
          [] := by
        simp [List.filter_cons, hc]
      rw [hfil, List.append_nil]
      rw [resolvedFrom_cons, if_neg (by simp [hc])]
      exact ih d

theorem filter_note_pred_eq (k : String) (ch : List ZNote) :
    ((ch.filter (fun c => c.itemType == "note")).filter
      (fun n => n.tags == ["notion-link"] && n.parentItem == k)) =
      ch.filter (isNotionLinkNote k) := by
  rw [List.filter_filter]
  apply List.filter_congr
  intro c _
  unfold isNotionLinkNote
  cases h1 : (c.parentItem == k) <;> cases h2 : (c.itemType == "note") <;>
    cases h3 : (c.tags == ["notion-link"]) <;> simp [h1, h2, h3]

/-- Claim C10: the `notion_id` assigned to each paper by
`get_all_zotero_papers` is determined by the LAST note (in fetch order)
whose tag set is exactly `notion-link` and whose parent is that paper:
every later such note overwrites the earlier assignment, including
overwriting a present identifier with an absent one when the later note's
body contains no matching link. -/
theorem last_note_wins (z : ZoteroState) (ps : List Paper)
    (hget : get_all_zotero_papers z = Except.ok ps) :
    ∀ p ∈ ps, p.notion_id =
      match (z.children.filter (isNotionLinkNote p.zotero_item_id)).getLast? with
      | some n => find_notion_id n.note
      | none => none := by
  intro p hp
  obtain ⟨d, _, halign, hps⟩ := get_all_characterized hget
  rw [hps] at hp
  rcases List.mem_map.mp hp with ⟨kv, hkv, hkvp⟩
  obtain ⟨ha1, _, _⟩ := halign kv hkv
  have hkey : p.zotero_item_id = kv.1 := by rw [← hkvp, ha1]
  have hnid : p.notion_id =
      resolvedFrom (z.children.filter (fun c => c.itemType == "note")) kv.1 none := by
    rw [← hkvp]
  rw [hnid, resolvedFrom_eq_getLast, hkey, filter_note_pred_eq]

theorem last_note_wins_witness :
    exPaper10.notion_id =
      match (exZState10.children.filter (isNotionLinkNote exPaper10.zotero_item_id)).getLast?
        with
      | some n => find_notion_id n.note
      | none => none :=
  last_note_wins exZState10 [exPaper10] (by decide) exPaper10 (by decide)

/-!  # The dictionary keyed by external id -/

theorem findRow_key {rows : List NotionRow} {k : String} {r : NotionRow}
    (h : findRow rows k = some r) : r.zotero_item_id = k := by
  unfold findRow at h
  have h2 := List.find?_some h
  exact beq_iff_eq.mp h2

theorem findRow_mem {rows : List NotionRow} {k : String} {r : NotionRow}
    (h : findRow rows k = some r) : r ∈ rows :=
  List.mem_of_find?_eq_some h

theorem findRow_none_iff {rows : List NotionRow} {k : String} :
    findRow rows k = none ↔ ∀ r ∈ rows, r.zotero_item_id ≠ k := by
  unfold findRow
  rw [List.find?_eq_none]
  constructor
  · intro h r hr
    have := h r hr
    simpa using this
  · intro h r hr
    simpa using h r hr

theorem findRow_append_ne {rows : List NotionRow} {x : NotionRow} {k : String}
    (h : x.zotero_item_id ≠ k) : findRow (rows ++ [x]) k = findRow rows k := by
  unfold findRow
  induction rows with
  | nil => simp [List.find?, beq_eq_false_iff_ne.mpr h]
  | cons a as ih =>
    rw [List.cons_append]
    cases ha : (a.zotero_item_id == k) with
    | true => simp [List.find?_cons, ha]
    | false =>
      simp only [List.find?_cons, ha, Bool.false_eq_true, if_false]
      exact ih

theorem findRow_append_self {rows : List NotionRow} {x : NotionRow} {k : String}
    (hnone : findRow rows k = none) (hx : x.zotero_item_id = k) :
    findRow (rows ++ [x]) k = some x := by
  unfold findRow at hnone ⊢
  induction rows with
  | nil => simp [List.find?, hx]
  | cons a as ih =>
    rw [List.cons_append]
    cases ha : (a.zotero_item_id == k) with
    | true =>
      simp only [List.find?_cons, ha, if_true] at hnone
      exact absurd hnone (by simp)
    | false =>
      simp only [List.find?_cons, ha, Bool.false_eq_true, if_false] at hnone ⊢
      exact ih hnone

theorem buildDict_disjoint :
    ∀ (papers : List Paper) (d : List (String × Paper)),
      (∀ p ∈ papers, ∀ kv ∈ d, kv.1 ≠ p.zotero_item_id) →
      (papers.map Paper.zotero_item_id).Nodup →
      papers.foldl (fun d p => dictInsert d p.zotero_item_id p) d =
        d ++ papers.map (fun p => (p.zotero_item_id, p)) := by
  intro papers
  induction papers with
  | nil => intro d _ _; simp
  | cons p ps ih =>
    intro d hdisj hnodup
    rw [List.foldl_cons]
    have hins : dictInsert d p.zotero_item_id p = d ++ [(p.zotero_item_id, p)] := by
      unfold dictInsert
      rw [if_neg]
      intro hany
      simp only [List.any_eq_true] at hany
      rcases hany with ⟨kv, hkv, hk⟩
      exact hdisj p (List.mem_cons_self p ps) kv hkv (beq_iff_eq.mp hk)
    rw [hins]
    rw [List.map_cons, List.nodup_cons] at hnodup
    rw [ih (d ++ [(p.zotero_item_id, p)])
      (by
        intro q hq kv hkv
        rcases List.mem_append.mp hkv with h2 | h2
        · exact hdisj q (List.mem_cons_of_mem _ hq) kv h2
        · simp only [List.mem_singleton] at h2
          rw [h2]
          intro hc
          have hc2 : p.zotero_item_id = q.zotero_item_id := hc
          exact hnodup.1 (by
            rw [hc2]
            exact List.mem_map_of_mem Paper.zotero_item_id hq))
      hnodup.2]
    rw [List.append_assoc]
    rfl

theorem dictGet_buildDict {papers : List Paper} {k : String}
    (hn : (papers.map Paper.zotero_item_id).Nodup) :
    dictGet (buildDict papers) k = papers.find? (fun p => p.zotero_item_id == k) := by
  unfold buildDict
  rw [buildDict_disjoint papers [] (by simp) hn, List.nil_append]
  unfold dictGet
  rw [List.find?_map]
  rw [show ((fun kv : String × Paper => kv.1 == k) ∘ fun p => (p.zotero_item_id, p)) =
    (fun p => p.zotero_item_id == k) from rfl]
  cases hfind : papers.find? (fun p => p.zotero_item_id == k) with
  | none => rfl
  | some p => rfl

theorem rowPaper_key (r : NotionRow) :
    (notion_page_to_paper r).zotero_item_id = r.zotero_item_id := rfl

theorem dictGet_byId {rows : List NotionRow} {k : String}
    (hn : (rows.map NotionRow.zotero_item_id).Nodup) :
    dictGet (buildDict (rows.map notion_page_to_paper)) k =
      (findRow rows k).map notion_page_to_paper := by
  rw [dictGet_buildDict (by rw [List.map_map]; exact hn)]
  unfold findRow
  rw [List.find?_map]
  rfl

/-!  # Round trips through the Board payload -/

theorem create_decode_roundtrip (p : Paper) (i : String)
    (ha : p.authors.length ≤ 2000) (hz : p.zotero_item_id.length ≤ 2000)
    (hl : p.link ≠ some "") (hp : p.published_at ≠ some "") :
    (notion_page_to_paper (createRow i (paper_to_notion_properties p))).zotero_eq p = true := by
  apply (zotero_eq_iff _ _).mpr
  refine ⟨rfl, truncate_text_of_le ha, ?_, ?_, rfl, truncate_text_of_le hz⟩
  · cases hpl : p.link with
    | none => simp [notion_page_to_paper, createRow, paper_to_notion_properties, hpl]
    | some l =>
      have hlne : l ≠ "" := fun he => hl (by rw [hpl, he])
      simp [notion_page_to_paper, createRow, paper_to_notion_properties, hpl, hlne]
  · cases hpp : p.published_at with
    | none => simp [notion_page_to_paper, createRow, paper_to_notion_properties, hpp]
    | some s =>
      have hsne : s ≠ "" := fun he => hp (by rw [hpp, he])
      simp [notion_page_to_paper, createRow, paper_to_notion_properties, hpp, hsne]

theorem update_decode_roundtrip (p : Paper) (r : NotionRow)
    (ha : p.authors.length ≤ 2000) (hz : p.zotero_item_id.length ≤ 2000)
    (hl : p.link ≠ some "") (hl2 : p.link ≠ none) (hp : p.published_at ≠ some "")
    (hpub : p.published_at ≠ none ∨ r.published_at = none ∨ r.published_at = some "") :
    (notion_page_to_paper (updateRow r (paper_to_notion_properties p))).zotero_eq p = true := by
  apply (zotero_eq_iff _ _).mpr
  refine ⟨rfl, truncate_text_of_le ha, ?_, ?_, rfl, truncate_text_of_le hz⟩
  · cases hpl : p.link with
    | none => exact absurd hpl hl2
    | some l =>
      have hlne : l ≠ "" := fun he => hl (by rw [hpl, he])
      simp [notion_page_to_paper, updateRow, paper_to_notion_properties, hpl, hlne]
  · cases hpp : p.published_at with
    | some s =>
      have hsne : s ≠ "" := fun he => hp (by rw [hpp, he])
      simp [notion_page_to_paper, updateRow, paper_to_notion_properties, hpp, hsne]
    | none =>
      rcases hpub with h | h | h
      · exact absurd hpp h
      · simp [notion_page_to_paper, updateRow, paper_to_notion_properties, hpp, h]
      · simp [notion_page_to_paper, updateRow, paper_to_notion_properties, hpp, h]

/-!  # Helpers about well-formed page ids and the written note -/

theorem idOk_spec {s : String} (h : idOk s = true) :
    stripHyphens s ≠ "" ∧ ∀ c ∈ (stripHyphens s).data, idChar c = true ∧ c ≠ '-' := by
  unfold idOk at h
  have h2 := Bool.and_eq_true_iff.mp h
  constructor
  · simpa using h2.1
  · intro c hc
    have h3 := List.all_eq_true.mp h2.2 c hc
    constructor
    · unfold idChar
      rw [h3]
      rfl
    · intro hcc
      rw [hcc] at h3
      exact absurd h3 (by decide)

theorem stripHyphens_idem {s : String} (h : idOk s = true) :
    stripHyphens (stripHyphens s) = stripHyphens s :=
  stripHyphens_of_no_hyphen (fun c hc => ((idOk_spec h).2 c hc).2)

theorem notion_url_of_id {np : Paper} {sid : String} (h : np.notion_id = some sid)
    (hne : sid ≠ "") :
    np.notion_url = some ("https://notion.so/" ++ stripHyphens sid) := by
  have h2 : np.notion_url =
      if sid ≠ "" then some ("https://notion.so/" ++ stripHyphens sid) else none := by
    unfold Paper.notion_url
    rw [h]
  rw [h2, if_pos hne]

theorem note_body_of_id {np : Paper} {sid : String} (h : np.notion_id = some sid)
    (hne : sid ≠ "") :
    note_body np =
      "<a href=\"" ++ ("https://notion.so/" ++ stripHyphens sid) ++ "\">Notion</a>" := by
  unfold note_body
  rw [notion_url_of_id h hne]

theorem update_note_gives_id (np : Paper) (ch : List ZNote) (sid : String)
    (hid : np.notion_id = some sid)
    (hok : stripHyphens sid = sid)
    (hne : sid ≠ "") (hch : ∀ c ∈ sid.data, idChar c = true)
    (h1 : (ch.filter (isNotionLinkNote np.zotero_item_id)).length ≤ 1) :
    resolvedId (update_zotero_notion_note np ch) np.zotero_item_id = some sid := by
  rw [update_note_resolvedId_self np ch h1, note_body_of_id hid hne, hok,
    find_notion_id_anchor sid hne hch]

theorem synced_frame {w₁ w₂ : World} {p : Paper}
    (hrows : findRow w₂.notion p.zotero_item_id = findRow w₁.notion p.zotero_item_id)
    (hnotes : resolvedId w₂.zotero.children p.zotero_item_id =
      resolvedId w₁.zotero.children p.zotero_item_id)
    (hs : synced w₁ p) : synced w₂ p := by
  obtain ⟨r, h1, h2, h3⟩ := hs
  exact ⟨r, by rw [hrows]; exact h1, h2, by rw [hnotes]; exact h3⟩

set_option maxHeartbeats 1000000

theorem syncStep_inv
    (w : World) (ps : List Paper)
    (hpsN : (ps.map Paper.zotero_item_id).Nodup)
    (hrowsN : (w.notion.map NotionRow.zotero_item_id).Nodup)
    (hidokW : ∀ r ∈ w.notion, idOk r.id = true)
    (hcontent : ∀ p ∈ ps, contentOk p)
    (hlinks : ∀ p ∈ ps, linksOk w p)
    (hlink_some : ∀ p ∈ ps, p.link ≠ none)
    (hnid : ∀ p ∈ ps, p.notion_id = resolvedId w.zotero.children p.zotero_item_id)
    (done todo : List Paper) (q : Paper)
    (hsplit : done ++ q :: todo = ps)
    (w₁ : World) (c₁ : WriteCounts) (wc2 : World × WriteCounts)
    (hInv : SyncInv w done (q :: todo) w₁)
    (hstep : syncStep (buildDict (w.notion.map notion_page_to_paper)) (w₁, c₁) q =
      Except.ok wc2) :
    SyncInv w (done ++ [q]) todo wc2.1 := by
  have hqps : q ∈ ps := by
    rw [← hsplit]
    exact List.mem_append_right _ (List.mem_cons_self _ _)
  have hkeyfacts : (∀ p ∈ done, p.zotero_item_id ≠ q.zotero_item_id) ∧
      (∀ p ∈ todo, p.zotero_item_id ≠ q.zotero_item_id) := by
    have hN : ((done ++ q :: todo).map Paper.zotero_item_id).Nodup := by
      rw [hsplit]; exact hpsN
    rw [List.map_append, List.map_cons] at hN
    obtain ⟨h1, h2, h3⟩ := List.nodup_append.mp hN
    refine ⟨?_, ?_⟩
    · intro p hp hpk
      exact h3 (List.mem_map_of_mem _ hp) (by rw [hpk]; exact List.mem_cons_self _ _)
    · intro p hp hpk
      rw [List.nodup_cons] at h2
      exact h2.1 (by rw [← hpk]; exact List.mem_map_of_mem _ hp)
  have hdoneq := hkeyfacts.1
  have htodoq := hkeyfacts.2
  have hdoneext : ∀ p ∈ done ++ [q], p ∈ done ∨ p = q := by
    intro p hp
    rcases List.mem_append.mp hp with h | h
    · exact Or.inl h
    · simp at h; exact Or.inr h
  rcases syncStep_cases _ (w₁, c₁) wc2 q hstep with
    ⟨i, rest, hsup, hdict, hwc⟩ | ⟨np, hdict, heqq, hwc⟩ |
    ⟨np, hdict, hneq, hze, hid, hwc⟩ | ⟨np, pid, rf, hdict, hze, hpid, hfr, hwc⟩
  · -- branch A: create
    rw [hwc]
    have hsup2 : w₁.nextIds = i :: rest := hsup
    have hfw : findRow w.notion q.zotero_item_id = none := by
      rw [dictGet_byId hrowsN] at hdict
      exact Option.map_eq_none'.mp hdict
    have hco := hcontent q hqps
    have hck : (createRow i (paper_to_notion_properties q)).zotero_item_id =
        q.zotero_item_id := by
      show truncate_text q.zotero_item_id 2000 = q.zotero_item_id
      exact truncate_text_of_le hco.2.1
    have hcpk : (notion_page_to_paper
        (createRow i (paper_to_notion_properties q))).zotero_item_id =
        q.zotero_item_id := hck
    have hqfresh : ∀ rr ∈ w₁.notion, rr.zotero_item_id ≠ q.zotero_item_id := by
      intro rr hrr hkey
      rcases hInv.keys_sub rr hrr with h | h
      · rcases List.mem_map.mp h with ⟨r0, hr0, hr0k⟩
        exact findRow_none_iff.mp hfw r0 hr0 (by rw [hr0k, hkey])
      · rcases List.mem_map.mp h with ⟨p0, hp0, hp0k⟩
        exact hdoneq p0 hp0 (by rw [hp0k, hkey])
    have hfw1 : findRow w₁.notion q.zotero_item_id = none := findRow_none_iff.mpr hqfresh
    have hidoki : idOk i = true :=
      hInv.supok i (by rw [hsup2]; exact List.mem_cons_self _ _)
    refine { items_eq := hInv.items_eq, keysN := ?_, idsN := ?_, idok := ?_,
             supok := ?_, notes1 := ?_,
             keys_sub := ?_, todo_rows := ?_, todo_notes := ?_, done_synced := ?_ }
    · show ((w₁.notion ++ [createRow i (paper_to_notion_properties q)]).map
        NotionRow.zotero_item_id).Nodup
      rw [List.map_append]
      refine List.nodup_append.mpr ⟨hInv.keysN, by simp, ?_⟩
      intro a ha hb
      rcases List.mem_map.mp ha with ⟨rr, hrr, hrrk⟩
      have hb2 : a = (createRow i (paper_to_notion_properties q)).zotero_item_id := by
        simpa using hb
      exact hqfresh rr hrr (by rw [hrrk, hb2]; exact hck)
    · show (((w₁.notion ++ [createRow i (paper_to_notion_properties q)]).map
        (fun r => stripHyphens r.id)) ++ rest.map stripHyphens).Nodup
      have h2 := hInv.idsN
      rw [hsup2, List.map_cons] at h2
      rw [List.map_append, List.append_assoc]
      exact h2
    · intro rr hrr
      rcases List.mem_append.mp hrr with h | h
      · exact hInv.idok rr h
      · have h2 : rr = createRow i (paper_to_notion_properties q) := by simpa using h
        rw [h2]
        exact hidoki
    · intro j hj
      exact hInv.supok j (by rw [hsup2]; exact List.mem_cons_of_mem _ hj)
    · exact update_note_count _ _ hInv.notes1
    · intro rr hrr
      rcases List.mem_append.mp hrr with h | h
      · rcases hInv.keys_sub rr h with h2 | h2
        · exact Or.inl h2
        · exact Or.inr (by rw [List.map_append]; exact List.mem_append_left _ h2)
      · have h2 : rr = createRow i (paper_to_notion_properties q) := by simpa using h
        refine Or.inr ?_
        rw [h2, hck, List.map_append]
        exact List.mem_append_right _ (by simp)
    · intro p hp
      have hne2 : (createRow i (paper_to_notion_properties q)).zotero_item_id ≠
          p.zotero_item_id := by
        rw [hck]
        exact fun he => htodoq p hp he.symm
      show findRow (w₁.notion ++ [createRow i (paper_to_notion_properties q)])
          p.zotero_item_id = findRow w.notion p.zotero_item_id
      rw [findRow_append_ne hne2]
      exact hInv.todo_rows p (List.mem_cons_of_mem _ hp)
    · intro p hp
      have hk : p.zotero_item_id ≠ (notion_page_to_paper
          (createRow i (paper_to_notion_properties q))).zotero_item_id := by
        rw [hcpk]
        exact htodoq p hp
      show resolvedId (update_zotero_notion_note
          (notion_page_to_paper (createRow i (paper_to_notion_properties q)))
          w₁.zotero.children) p.zotero_item_id =
        resolvedId w.zotero.children p.zotero_item_id
      rw [update_note_resolvedId_other _ _ _ hk]
      exact hInv.todo_notes p (List.mem_cons_of_mem _ hp)
    · intro p hp
      rcases hdoneext p hp with h | h
      · have hne2 : (createRow i (paper_to_notion_properties q)).zotero_item_id ≠
            p.zotero_item_id := by
          rw [hck]
          exact fun he => hdoneq p h he.symm
        have hk : p.zotero_item_id ≠ (notion_page_to_paper
            (createRow i (paper_to_notion_properties q))).zotero_item_id := by
          rw [hcpk]
          exact hdoneq p h
        refine synced_frame ?_ ?_ (hInv.done_synced p h)
        · show findRow (w₁.notion ++ [createRow i (paper_to_notion_properties q)])
            p.zotero_item_id = findRow w₁.notion p.zotero_item_id
          exact findRow_append_ne hne2
        · exact update_note_resolvedId_other _ _ _ hk
      · subst h
        refine ⟨createRow i (paper_to_notion_properties p), ?_, ?_, ?_⟩
        · show findRow (w₁.notion ++ [createRow i (paper_to_notion_properties p)])
            p.zotero_item_id = some (createRow i (paper_to_notion_properties p))
          exact findRow_append_self hfw1 hck
        · exact create_decode_roundtrip p i hco.1 hco.2.1 hco.2.2.1 hco.2.2.2
        · show resolvedId (update_zotero_notion_note
            (notion_page_to_paper (createRow i (paper_to_notion_properties p)))
            w₁.zotero.children) p.zotero_item_id =
            some (stripHyphens (createRow i (paper_to_notion_properties p)).id)
          rw [← hcpk]
          exact update_note_gives_id _ _ (stripHyphens i) rfl (stripHyphens_idem hidoki)
            (idOk_spec hidoki).1 (fun c hc => ((idOk_spec hidoki).2 c hc).1)
            (hInv.notes1 _)
  · -- branch B: no-op
    rw [hwc]
    have hr : ∃ r, findRow w.notion q.zotero_item_id = some r ∧ notion_page_to_paper r = np := by
      rw [dictGet_byId hrowsN] at hdict
      rcases Option.map_eq_some'.mp hdict with ⟨r, h1, h2⟩
      exact ⟨r, h1, h2⟩
    rcases hr with ⟨r, hfrow, hrnp⟩
    refine { items_eq := hInv.items_eq, keysN := hInv.keysN, idsN := hInv.idsN,
             idok := hInv.idok, supok := hInv.supok, notes1 := hInv.notes1,
             keys_sub := ?_, todo_rows := ?_, todo_notes := ?_, done_synced := ?_ }
    · intro rr hrr
      rcases hInv.keys_sub rr hrr with h | h
      · exact Or.inl h
      · exact Or.inr (by rw [List.map_append]; exact List.mem_append_left _ h)
    · intro p hp
      exact hInv.todo_rows p (List.mem_cons_of_mem _ hp)
    · intro p hp
      exact hInv.todo_notes p (List.mem_cons_of_mem _ hp)
    · intro p hp
      rcases hdoneext p hp with h | h
      · exact hInv.done_synced p h
      · subst h
        refine ⟨r, ?_, ?_, ?_⟩
        · rw [hInv.todo_rows p (List.mem_cons_self _ _)]
          exact hfrow
        · rw [hrnp, ← heqq]
          exact zotero_eq_refl p
        · rw [hInv.todo_notes p (List.mem_cons_self _ _), ← hnid p hqps, heqq, ← hrnp]
          rfl
  · -- branch C: link-only repair
    rw [hwc]
    have hr : ∃ r, findRow w.notion q.zotero_item_id = some r ∧
        notion_page_to_paper r = np := by
      rw [dictGet_byId hrowsN] at hdict
      rcases Option.map_eq_some'.mp hdict with ⟨r, h1, h2⟩
      exact ⟨r, h1, h2⟩
    rcases hr with ⟨r, hfrow, hrnp⟩
    have hrid : idOk r.id = true := hidokW r (findRow_mem hfrow)
    have hkq : np.zotero_item_id = q.zotero_item_id := by
      rw [← hrnp, rowPaper_key]
      exact findRow_key hfrow
    refine { items_eq := hInv.items_eq, keysN := hInv.keysN, idsN := hInv.idsN,
             idok := hInv.idok, supok := hInv.supok, notes1 := ?_,
             keys_sub := ?_, todo_rows := ?_, todo_notes := ?_, done_synced := ?_ }
    · exact update_note_count np _ hInv.notes1
    · intro rr hrr
      rcases hInv.keys_sub rr hrr with h | h
      · exact Or.inl h
      · exact Or.inr (by rw [List.map_append]; exact List.mem_append_left _ h)
    · intro p hp
      exact hInv.todo_rows p (List.mem_cons_of_mem _ hp)
    · intro p hp
      rw [show (World.mk
          (ZoteroState.mk w₁.zotero.items (update_zotero_notion_note np w₁.zotero.children))
          w₁.notion w₁.nextIds).zotero.children =
          update_zotero_notion_note np w₁.zotero.children from rfl]
      rw [update_note_resolvedId_other np _ p.zotero_item_id
        (by rw [hkq]; exact htodoq p hp)]
      exact hInv.todo_notes p (List.mem_cons_of_mem _ hp)
    · intro p hp
      rcases hdoneext p hp with h | h
      · refine synced_frame ?_ ?_ (hInv.done_synced p h)
        · rfl
        · exact update_note_resolvedId_other np w₁.zotero.children p.zotero_item_id
            (by rw [hkq]; exact hdoneq p h)
      · subst h
        refine ⟨r, ?_, ?_, ?_⟩
        · rw [show (World.mk
            (ZoteroState.mk w₁.zotero.items (update_zotero_notion_note np w₁.zotero.children))
            w₁.notion w₁.nextIds).notion = w₁.notion from rfl]
          rw [hInv.todo_rows p (List.mem_cons_self _ _)]
          exact hfrow
        · rw [hrnp, zotero_eq_symm]
          exact hze
        · have hnpid : np.notion_id = some (stripHyphens r.id) := by rw [← hrnp]; rfl
          rw [show (World.mk
            (ZoteroState.mk w₁.zotero.items (update_zotero_notion_note np w₁.zotero.children))
            w₁.notion w₁.nextIds).zotero.children =
            update_zotero_notion_note np w₁.zotero.children from rfl]
          rw [← hkq]
          exact update_note_gives_id np _ (stripHyphens r.id) hnpid
            (stripHyphens_idem hrid) (idOk_spec hrid).1
            (fun c hc => ((idOk_spec hrid).2 c hc).1) (hInv.notes1 np.zotero_item_id)
  · -- branch D: content update
    rw [hwc]
    have hr : ∃ r, findRow w.notion q.zotero_item_id = some r ∧
        notion_page_to_paper r = np := by
      rw [dictGet_byId hrowsN] at hdict
      rcases Option.map_eq_some'.mp hdict with ⟨r, h1, h2⟩
      exact ⟨r, h1, h2⟩
    rcases hr with ⟨rw0, hfrow, hrnp⟩
    have hl := hlinks q hqps
    unfold linksOk at hl
    rw [hfrow] at hl
    have hl2 : (q.notion_id = none ∨ q.notion_id = some (stripHyphens rw0.id)) ∧
        (q.zotero_eq (notion_page_to_paper rw0) = false →
          q.notion_id = some (stripHyphens rw0.id) ∧
            (q.published_at ≠ none ∨ rw0.published_at = none ∨
              rw0.published_at = some "")) := hl
    have hze2 : q.zotero_eq (notion_page_to_paper rw0) = false := by rw [hrnp]; exact hze
    have hlq := hl2.2 hze2
    have hpid2 : pid = stripHyphens rw0.id := by
      rw [hlq.1] at hpid
      injection hpid with h2
      exact h2.symm
    have hrmem1 : rw0 ∈ w₁.notion := by
      apply findRow_mem (k := q.zotero_item_id)
      rw [hInv.todo_rows q (List.mem_cons_self _ _)]
      exact hfrow
    have hstripN : (w₁.notion.map (fun r => stripHyphens r.id)).Nodup :=
      List.Nodup.of_append_left hInv.idsN
    have huniq : ∀ x ∈ w₁.notion, (fun row => stripHyphens row.id == pid) x = true →
        x = rw0 := by
      intro x hx hpx
      have h2 : stripHyphens x.id = pid := beq_iff_eq.mp hpx
      exact List.inj_on_of_nodup_map hstripN hx hrmem1 (by rw [h2, hpid2])
    have hprw : (fun row => stripHyphens row.id == pid) rw0 = true := by
      show (stripHyphens rw0.id == pid) = true
      rw [hpid2]
      exact beq_self_eq_true _
    have hfr2 : rf = rw0 := by
      have h2 : w₁.notion.find? (fun row => stripHyphens row.id == pid) = some rw0 :=
        find?_eq_some_of_unique hrmem1 hprw huniq
      rw [hfr] at h2
      injection h2
    subst hfr2
    have hrkey : rf.zotero_item_id = q.zotero_item_id := findRow_key hfrow
    have hco := hcontent q hqps
    have hfkey : (updateRow rf (paper_to_notion_properties q)).zotero_item_id =
        q.zotero_item_id := by
      show truncate_text q.zotero_item_id 2000 = q.zotero_item_id
      exact truncate_text_of_le hco.2.1
    have hfid : (updateRow rf (paper_to_notion_properties q)).id = rf.id := rfl
    refine { items_eq := hInv.items_eq, keysN := ?_, idsN := ?_, idok := ?_,
             supok := hInv.supok, notes1 := hInv.notes1,
             keys_sub := ?_, todo_rows := ?_, todo_notes := ?_, done_synced := ?_ }
    · rw [show (World.mk w₁.zotero (replaceFirst w₁.notion
        (fun row => stripHyphens row.id == pid)
        (fun row => updateRow row (paper_to_notion_properties q))) w₁.nextIds).notion =
        replaceFirst w₁.notion (fun row => stripHyphens row.id == pid)
        (fun row => updateRow row (paper_to_notion_properties q)) from rfl]
      rw [replaceFirst_map w₁.notion (fun row => stripHyphens row.id == pid)
        (fun row => updateRow row (paper_to_notion_properties q))
        NotionRow.zotero_item_id (fun x hx hpx => by
          have hxr := huniq x hx hpx
          subst hxr
          rw [hfkey, hrkey])]
      exact hInv.keysN
    · rw [show (World.mk w₁.zotero (replaceFirst w₁.notion
        (fun row => stripHyphens row.id == pid)
        (fun row => updateRow row (paper_to_notion_properties q))) w₁.nextIds).notion =
        replaceFirst w₁.notion (fun row => stripHyphens row.id == pid)
        (fun row => updateRow row (paper_to_notion_properties q)) from rfl]
      rw [replaceFirst_map w₁.notion (fun row => stripHyphens row.id == pid)
        (fun row => updateRow row (paper_to_notion_properties q))
        (fun r => stripHyphens r.id) (fun x _ _ => rfl)]
      exact hInv.idsN
    · intro rr hrr
      rcases mem_replaceFirst hrr with h | ⟨y, hy, hpy, hry⟩
      · exact hInv.idok rr h
      · rw [hry, huniq y hy hpy]
        exact hInv.idok rf hrmem1
    · intro rr hrr
      rcases mem_replaceFirst hrr with h | ⟨y, hy, hpy, hry⟩
      · rcases hInv.keys_sub rr h with h2 | h2
        · exact Or.inl h2
        · exact Or.inr (by rw [List.map_append]; exact List.mem_append_left _ h2)
      · rw [hry, huniq y hy hpy]
        refine Or.inr ?_
        rw [hfkey, List.map_append]
        exact List.mem_append_right _ (by simp)
    · intro p hp
      have hfr3 : findRow (replaceFirst w₁.notion (fun row => stripHyphens row.id == pid)
          (fun row => updateRow row (paper_to_notion_properties q))) p.zotero_item_id =
          findRow w₁.notion p.zotero_item_id := by
        unfold findRow
        apply find?_replaceFirst_of_ne
        intro x hx hpx
        have hxr := huniq x hx hpx
        subst hxr
        constructor
        · show (x.zotero_item_id == p.zotero_item_id) = false
          rw [hrkey]
          exact beq_eq_false_iff_ne.mpr (fun he => htodoq p hp he.symm)
        · show ((updateRow x (paper_to_notion_properties q)).zotero_item_id ==
            p.zotero_item_id) = false
          rw [hfkey]
          exact beq_eq_false_iff_ne.mpr (fun he => htodoq p hp he.symm)
      rw [hfr3]
      exact hInv.todo_rows p (List.mem_cons_of_mem _ hp)
    · intro p hp
      exact hInv.todo_notes p (List.mem_cons_of_mem _ hp)
    · intro p hp
      rcases hdoneext p hp with h | h
      · refine synced_frame ?_ ?_ (hInv.done_synced p h)
        · unfold findRow
          apply find?_replaceFirst_of_ne
          intro x hx hpx
          have hxr := huniq x hx hpx
          subst hxr
          constructor
          · show (x.zotero_item_id == p.zotero_item_id) = false
            rw [hrkey]
            exact beq_eq_false_iff_ne.mpr (fun he => hdoneq p h he.symm)
          · show ((updateRow x (paper_to_notion_properties q)).zotero_item_id ==
              p.zotero_item_id) = false
            rw [hfkey]
            exact beq_eq_false_iff_ne.mpr (fun he => hdoneq p h he.symm)
        · rfl
      · subst h
        refine ⟨updateRow rf (paper_to_notion_properties p), ?_, ?_, ?_⟩
        · show List.find? (fun r => r.zotero_item_id == p.zotero_item_id)
            (replaceFirst w₁.notion (fun row => stripHyphens row.id == pid)
              (fun row => updateRow row (paper_to_notion_properties p))) =
            some (updateRow rf (paper_to_notion_properties p))
          apply find?_replaceFirst_hit
          · have h2 := hInv.todo_rows p (List.mem_cons_self _ _)
            unfold findRow at h2
            rw [h2]
            unfold findRow at hfrow
            exact hfrow
          · exact hprw
          · exact huniq
          · show ((updateRow rf (paper_to_notion_properties p)).zotero_item_id ==
              p.zotero_item_id) = true
            rw [hfkey]
            exact beq_self_eq_true _
        · exact update_decode_roundtrip p rf hco.1 hco.2.1 hco.2.2.1 (hlink_some p hqps)
            hco.2.2.2 hlq.2
        · show resolvedId w₁.zotero.children p.zotero_item_id =
            some (stripHyphens (updateRow rf (paper_to_notion_properties p)).id)
          rw [hInv.todo_notes p (List.mem_cons_self _ _), ← hnid p hqps, hlq.1, hfid]

/-!  # Idempotence of the full pass -/

theorem get_all_facts {z : ZoteroState} {ps : List Paper}
    (hget : get_all_zotero_papers z = Except.ok ps) :
    ∀ p ∈ ps, p.notion_id = resolvedId z.children p.zotero_item_id ∧ p.link ≠ none := by
  obtain ⟨d, _, halign, hps⟩ := get_all_characterized hget
  intro p hp
  rw [hps] at hp
  rcases List.mem_map.mp hp with ⟨kv, hkv, hkvp⟩
  obtain ⟨ha1, _, ha3⟩ := halign kv hkv
  constructor
  · rw [← hkvp]
    show resolvedFrom (z.children.filter (fun c => c.itemType == "note")) kv.1 none =
      resolvedFrom (z.children.filter (fun c => c.itemType == "note")) kv.2.zotero_item_id
        none
    rw [ha1]
  · rw [← hkvp]
    show kv.2.link ≠ none
    exact ha3

theorem get_all_second {w w' : World} {ps : List Paper}
    (hget : get_all_zotero_papers w.zotero = Except.ok ps)
    (hitems : w'.zotero.items = w.zotero.items) :
    get_all_zotero_papers w'.zotero =
      Except.ok (ps.map (fun p =>
        { p with notion_id := resolvedId w'.zotero.children p.zotero_item_id })) := by
  obtain ⟨d, hb, halign, hps⟩ := get_all_characterized hget
  have h1 : get_all_zotero_papers w'.zotero =
      Except.ok (((w'.zotero.children.filter (fun c => c.itemType == "note")).foldl
        applyNote d).map (fun kv => kv.2)) := by
    unfold get_all_zotero_papers
    rw [hitems, hb]
  rw [h1]
  congr 1
  rw [foldl_applyNote, List.map_map, hps, List.map_map]
  apply List.map_congr_left
  intro kv hkv
  obtain ⟨ha1, ha2, _⟩ := halign kv hkv
  simp only [Function.comp]
  show ({ kv.2 with notion_id := (resolvedFrom
      (w'.zotero.children.filter (fun c => c.itemType == "note")) kv.1
      kv.2.notion_id) } : Paper) =
    ({ kv.2 with notion_id := (resolvedFrom
      (w'.zotero.children.filter (fun c => c.itemType == "note")) kv.2.zotero_item_id
      none) } : Paper)
  rw [ha2, ha1]

theorem foldlM_noop (byId : List (String × Paper)) :
    ∀ (l : List Paper) (wc : World × WriteCounts),
      (∀ p ∈ l, dictGet byId p.zotero_item_id = some p) →
      List.foldlM (syncStep byId) wc l = Except.ok wc := by
  intro l
  induction l with
  | nil => intro wc _; rfl
  | cons q l ih =>
    intro wc h
    rw [List.foldlM_cons]
    have hq : syncStep byId wc q = Except.ok wc := by
      simp only [syncStep, h q (List.mem_cons_self _ _), if_true]
    rw [hq]
    show List.foldlM (syncStep byId) wc l = Except.ok wc
    exact ih wc (fun p hp => h p (List.mem_cons_of_mem _ hp))

theorem sync_fold_inv
    (w : World) (ps : List Paper)
    (hpsN : (ps.map Paper.zotero_item_id).Nodup)
    (hrowsN : (w.notion.map NotionRow.zotero_item_id).Nodup)
    (hidokW : ∀ r ∈ w.notion, idOk r.id = true)
    (hcontent : ∀ p ∈ ps, contentOk p)
    (hlinks : ∀ p ∈ ps, linksOk w p)
    (hlink_some : ∀ p ∈ ps, p.link ≠ none)
    (hnid : ∀ p ∈ ps, p.notion_id = resolvedId w.zotero.children p.zotero_item_id) :
    ∀ (todo done : List Paper) (w₁ : World) (c₁ : WriteCounts)
      (wc2 : World × WriteCounts),
      done ++ todo = ps →
      SyncInv w done todo w₁ →
      List.foldlM (syncStep (buildDict (w.notion.map notion_page_to_paper))) (w₁, c₁)
        todo = Except.ok wc2 →
      SyncInv w ps [] wc2.1 := by
  intro todo
  induction todo with
  | nil =>
    intro done w₁ c₁ wc2 hsplit hInv hfold
    have h2 : (Except.ok (w₁, c₁) : Except String (World × WriteCounts)) =
        Except.ok wc2 := hfold
    injection h2 with h3
    rw [← h3]
    rw [List.append_nil] at hsplit
    rw [← hsplit]
    exact hInv
  | cons q todo ih =>
    intro done w₁ c₁ wc2 hsplit hInv hfold
    rw [List.foldlM_cons] at hfold
    cases hq : syncStep (buildDict (w.notion.map notion_page_to_paper)) (w₁, c₁) q with
    | error e =>
      rw [hq] at hfold
      have hcontra : (Except.error e : Except String (World × WriteCounts)) =
          Except.ok wc2 := hfold
      exact absurd hcontra (by simp)
    | ok wcmid =>
      rw [hq] at hfold
      have hfold2 : List.foldlM (syncStep (buildDict (w.notion.map notion_page_to_paper)))
          (wcmid.1, wcmid.2) todo = Except.ok wc2 := hfold
      have hInv2 : SyncInv w (done ++ [q]) todo wcmid.1 :=
        syncStep_inv w ps hpsN hrowsN hidokW hcontent hlinks hlink_some hnid
          done todo q hsplit w₁ c₁ wcmid hInv hq
      exact ih (done ++ [q]) wcmid.1 wcmid.2 wc2
        (by rw [List.append_assoc]; exact hsplit) hInv2 hfold2

/-- Claim C1 (amended): the pass is idempotent under explicit
well-formedness provisos.  If the Library snapshot decodes to papers `ps`
with distinct item keys, the Board rows have distinct item keys and
well-formed, globally distinct page ids (including the id supply), each
item has at most one `notion-link` note, all contents fit the write
payload (`contentOk`), and every resolved back-link is consistent with the
counterpart row (`linksOk`), then after a successful first run producing
world `w'`, a second run over `w'` succeeds, changes nothing, and issues
zero creates, zero updates and zero back-link writes. -/
theorem synchronize_idempotent
    (w w' : World) (c : WriteCounts) (ps : List Paper)
    (hget : get_all_zotero_papers w.zotero = Except.ok ps)
    (hpsN : (ps.map Paper.zotero_item_id).Nodup)
    (hrowsN : (w.notion.map NotionRow.zotero_item_id).Nodup)
    (hids : ((w.notion.map (fun r => stripHyphens r.id)) ++
      w.nextIds.map stripHyphens).Nodup)
    (hidokW : ∀ r ∈ w.notion, idOk r.id = true)
    (hsupok : ∀ j ∈ w.nextIds, idOk j = true)
    (hnotes1 : ∀ n ∈ w.zotero.children,
      (w.zotero.children.filter (isNotionLinkNote n.parentItem)).length ≤ 1)
    (hcontent : ∀ p ∈ ps, contentOk p)
    (hlinks : ∀ p ∈ ps, linksOk w p)
    (hrun : synchronize w = Except.ok (w', c)) :
    synchronize w' = Except.ok (w', WriteCounts.mk 0 0 0) := by
  have hfacts := get_all_facts hget
  have hnid : ∀ p ∈ ps, p.notion_id = resolvedId w.zotero.children p.zotero_item_id :=
    fun p hp => (hfacts p hp).1
  have hlink_some : ∀ p ∈ ps, p.link ≠ none := fun p hp => (hfacts p hp).2
  have hnotes1' : ∀ pid, (w.zotero.children.filter (isNotionLinkNote pid)).length ≤ 1 := by
    intro pid
    cases hfil : w.zotero.children.filter (isNotionLinkNote pid) with
    | nil => simp [hfil]
    | cons n rest =>
      have hn : n ∈ w.zotero.children.filter (isNotionLinkNote pid) := by
        rw [hfil]; exact List.mem_cons_self _ _
      have hn2 := List.mem_filter.mp hn
      have hpar : n.parentItem = pid := ((isNotionLinkNote_iff pid n).mp hn2.2).1
      have h2 := hnotes1 n hn2.1
      rw [hpar, hfil] at h2
      exact h2
  unfold synchronize at hrun
  rw [hget] at hrun
  have hrun2 : List.foldlM (syncStep (buildDict (w.notion.map notion_page_to_paper)))
      (w, WriteCounts.mk 0 0 0) ps = Except.ok (w', c) := hrun
  have hInv0 : SyncInv w [] ps w :=
    { items_eq := rfl, keysN := hrowsN, idsN := hids, idok := hidokW,
      supok := hsupok, notes1 := hnotes1',
      keys_sub := fun r hr => Or.inl (List.mem_map_of_mem _ hr),
      todo_rows := fun p _ => rfl, todo_notes := fun p _ => rfl,
      done_synced := fun p hp => absurd hp (List.not_mem_nil p) }
  have hfin : SyncInv w ps [] (w', c).1 :=
    sync_fold_inv w ps hpsN hrowsN hidokW hcontent hlinks hlink_some hnid
      ps [] w (WriteCounts.mk 0 0 0) (w', c) (List.nil_append ps) hInv0 hrun2
  have hitems : w'.zotero.items = w.zotero.items := hfin.items_eq
  have hkeysN : (w'.notion.map NotionRow.zotero_item_id).Nodup := hfin.keysN
  unfold synchronize
  rw [get_all_second hget hitems]
  show List.foldlM (syncStep (buildDict (w'.notion.map notion_page_to_paper)))
      (w', WriteCounts.mk 0 0 0)
      (ps.map (fun p =>
        { p with notion_id := resolvedId w'.zotero.children p.zotero_item_id })) =
    Except.ok (w', WriteCounts.mk 0 0 0)
  apply foldlM_noop
  intro p₂ hp₂
  rcases List.mem_map.mp hp₂ with ⟨p, hp, hpp⟩
  obtain ⟨r, hfr, hze, hres⟩ := hfin.done_synced p hp
  have hfr2 : findRow w'.notion p.zotero_item_id = some r := hfr
  have hres2 : resolvedId w'.zotero.children p.zotero_item_id =
      some (stripHyphens r.id) := hres
  have hkey : p₂.zotero_item_id = p.zotero_item_id := by rw [← hpp]
  have hze2 : (notion_page_to_paper r).zotero_eq p₂ = true := by
    rw [← hpp]
    exact hze
  have hid2 : (notion_page_to_paper r).notion_id = p₂.notion_id := by
    rw [← hpp]
    show some (stripHyphens r.id) = resolvedId w'.zotero.children p.zotero_item_id
    exact hres2.symm
  have hn2p : notion_page_to_paper r = p₂ := paper_eq_of_zotero_eq_of_id_eq hze2 hid2
  rw [dictGet_byId hkeysN, hkey, hfr2]
  show some (notion_page_to_paper r) = some p₂
  rw [hn2p]

/-- Counterexample to claim C1 as stated: in `exWorldDate` the Library
paper has no date while its Board row carries one; the partial update
cannot clear the date, so the first run leaves the world unchanged yet
reports one update — and a second run over the unchanged world issues one
update again, not zero writes. -/
theorem synchronize_idempotent_counterexample :
    synchronize exWorldDate = Except.ok (exWorldDate, WriteCounts.mk 0 1 0) ∧
    synchronize exWorldDate ≠ Except.ok (exWorldDate, WriteCounts.mk 0 0 0) :=
  ⟨by decide, by decide⟩

theorem synchronize_idempotent_witness :
    synchronize exWorldSync = Except.ok (exWorldSync, WriteCounts.mk 0 0 0) :=
  synchronize_idempotent exWorldSync exWorldSync (WriteCounts.mk 0 0 0) [exPaperSync]
    (by decide) (by decide) (by decide) (by decide) (by decide) (by decide)
    (by decide) (by decide) (by decide) (by decide)
